import Mathlib

/-!
Verification of the xraycheck proxy-checker against its specification.

The Python sources are shallowly embedded: pure functions become Lean
functions, stateful code threads an explicit state record, and the
external world (HTTP stack, relay child process, clock, filesystem) is
an oracle structure supplied as an argument.  Machine floats of the
source are modelled as rationals, byte strings as lists of naturals
below 256.
-/

namespace XrayCheck

/-- A decoded HTTP response as seen by `requests`: status code plus body
bytes.  Only the status and the body length are inspected by the code. -/
structure Response where
  status_code : Nat
  content : List Nat
deriving DecidableEq, Repr

/-- Does `pat` occur at the head of `s` (on character lists)? -/
def charsLead : List Char → List Char → Bool
  | [], _ => true
  | _ :: _, [] => false
  | c :: cs, d :: ds => c == d && charsLead cs ds

/-- Does `pat` occur anywhere inside `s` (on character lists)? -/
def charsOccur (pat : List Char) : List Char → Bool
  | [] => charsLead pat []
  | c :: cs => charsLead pat (c :: cs) || charsOccur pat cs

/-- Python `pat in s` substring test. -/
def strContains (s pat : String) : Bool :=
  charsOccur pat.data s.data

/-- Truthiness of `response` in `if response and not error`: for
`requests.Response`, `__bool__` is `self.ok`, i.e. status below 400;
`None` is falsy. -/
def respTruthy : Option Response → Bool
  | none => false
  | some r => decide (r.status_code < 400)

/-- `lib/utils.py check_response_valid(response, min_size, url)`.
For a `generate_204`-style URL: status must be 200 or 204 and the body
at most 64 bytes; otherwise the status must lie in `[200, 400)`.  In
both cases, when `min_size > 0` the body must have at least `min_size`
bytes (the `if min_size > 0` check sits after the `if/elif` and runs on
every branch). -/
def check_response_valid (response : Option Response) (min_size : Int) (url : String) : Bool :=
  match response with
  | none => false
  | some r =>
    (if strContains url "generate_204" then
       (r.status_code == 200 || r.status_code == 204) && decide (r.content.length ≤ 64)
     else
       decide (200 ≤ r.status_code ∧ r.status_code < 400))
    && (if 0 < min_size then decide (min_size ≤ (r.content.length : Int)) else true)

/-- The validation rule exactly as the specification words it (claim C1):
the `min_size` lower bound is only required for non-`generate_204`
URLs. -/
def claimed_response_valid (r : Response) (min_size : Int) (url : String) : Bool :=
  if strContains url "generate_204" then
    (r.status_code == 200 || r.status_code == 204) && decide (r.content.length ≤ 64)
  else
    decide (200 ≤ r.status_code ∧ r.status_code < 400)
    && (if 0 < min_size then decide (min_size ≤ (r.content.length : Int)) else true)

/-- The validation rule amended to match the code: the `min_size` lower
bound applies to `generate_204` URLs as well. -/
def amended_response_valid (r : Response) (min_size : Int) (url : String) : Bool :=
  if strContains url "generate_204" then
    (r.status_code == 200 || r.status_code == 204) && decide (r.content.length ≤ 64)
    && (if 0 < min_size then decide (min_size ≤ (r.content.length : Int)) else true)
  else
    decide (200 ≤ r.status_code ∧ r.status_code < 400)
    && (if 0 < min_size then decide (min_size ≤ (r.content.length : Int)) else true)

/-- C1 counterexample: a 204 response with a 1-byte body to a
`generate_204` URL, checked with `min_size = 10`.  The spec rule accepts
it (status in 200/204 and body at most 64 bytes) but the code rejects
it, because the `min_size` check also runs on the `generate_204`
branch. -/
theorem c1_counterexample :
    check_response_valid (some ⟨204, [0]⟩) 10 "http://x/generate_204"
      ≠ claimed_response_valid ⟨204, [0]⟩ 10 "http://x/generate_204" := by
  decide

/-- C1 (amended): `check_response_valid` computes exactly the spec rule
with the `min_size` lower bound applied on both branches; in particular
a 200 response with a 65-byte body to a `generate_204` URL is invalid. -/
theorem c1_response_validation (r : Response) (min_size : Int) (url : String) :
    check_response_valid (some r) min_size url = amended_response_valid r min_size url
    ∧ check_response_valid (some ⟨200, List.replicate 65 0⟩) 0 "http://g/generate_204" = false := by
  constructor
  · unfold check_response_valid amended_response_valid
    cases h : strContains url "generate_204" <;> simp [h, Bool.and_assoc]
  · decide

/-! ## Normalized keys and the notworkers merge

`lib/parsing.py normalize_proxy_link` plus the notworkers bookkeeping of
`vless_checker.py save_results_and_exit` and
`lib/parsing.py save_notworkers`. -/

/-- Python `str.strip()` on a character list. -/
def pyStripChars (cs : List Char) : List Char :=
  ((cs.dropWhile Char.isWhitespace).reverse.dropWhile Char.isWhitespace).reverse

/-- Python `str.strip()`. -/
def pyStrip (s : String) : String := ⟨pyStripChars s.data⟩

/-- `parsing.py normalize_proxy_link`: strip, keep the first
whitespace-separated token, cut everything from the first `#` on, strip
again.  (Python raises `IndexError` on a purely-whitespace input; the
callers only pass scheme-prefixed tokens, and the model returns `""`
there.) -/
def normalize_proxy_link (link : String) : String :=
  let tok := (pyStripChars link.data).takeWhile (fun c => !c.isWhitespace)
  if tok.contains '#' then ⟨pyStripChars (tok.takeWhile (fun c => c ≠ '#'))⟩
  else ⟨tok⟩

/-- A Python `dict[str, str]` as an association list; later bindings win. -/
abbrev LineMap := List (String × String)

/-- Python `dict.get`: value of the last binding of `k`, if any. -/
def dictGet (m : LineMap) (k : String) : Option String :=
  ((m.filter (fun p => decide (p.1 = k))).getLast?).map (fun p => p.2)

/-- `vless_checker.py:402`: `failed_links = set(all_metrics.keys()) - available_links`. -/
def failed_links (checked passed : List String) : List String :=
  checked.filter (fun l => decide (l ∉ passed))

/-- `vless_checker.py:406`: normalized keys of the failed links, empty
normalizations dropped. -/
def failed_normalized (checked passed : List String) : List String :=
  ((failed_links checked passed).map normalize_proxy_link).filter (fun n => decide (n ≠ ""))

/-- `vless_checker.py:403`: normalized keys of the passed links, empty
normalizations dropped. -/
def available_normalized (passed : List String) : List String :=
  (passed.map normalize_proxy_link).filter (fun n => decide (n ≠ ""))

/-- `vless_checker.py:409`: `merged_set = (existing_set | failed_normalized) - available_normalized`. -/
def merged_set (existing : LineMap) (checked passed : List String) : List String :=
  ((existing.map Prod.fst) ++ failed_normalized checked passed).filter
    (fun n => decide (n ∉ available_normalized passed))

/-- `vless_checker.py:408`: the dict comprehension
`failed_normalized_to_full[normalize(link)] = link_to_full.get(link, link)`
over the failed links; as in a Python dict, the last link with a given
normalization wins. -/
def failed_full (checked passed : List String) (fullOf : String → Option String)
    (n : String) : Option String :=
  (((failed_links checked passed).filter
      (fun l => decide (normalize_proxy_link l = n))).getLast?).map
    (fun l => (fullOf l).getD l)

/-- Python `x or y` on an optional string: `y` when `x` is `None` or `""`. -/
def pyOrStr (x : Option String) (y : String) : String :=
  match x with
  | some s => if s = "" then y else s
  | none => y

/-- `vless_checker.py:410`: the full line stored for `n`, i.e.
`existing_normalized_to_full.get(n) or failed_normalized_to_full.get(n, n)`. -/
def merged_full (existing : LineMap) (checked passed : List String)
    (fullOf : String → Option String) (n : String) : String :=
  pyOrStr (dictGet existing n) ((failed_full checked passed fullOf n).getD n)

/-- The set of normalized keys present in the notworkers file after the
run: when the update branch runs (`if failed_links or available_normalized`),
`save_notworkers` writes exactly the members of `merged_set` whose stored
full line is non-empty; otherwise the file keeps the existing keys. -/
def persisted_notworkers (existing : LineMap) (checked passed : List String)
    (fullOf : String → Option String) : List String :=
  if failed_links checked passed ≠ [] ∨ available_normalized passed ≠ [] then
    (merged_set existing checked passed).filter
      (fun n => decide (merged_full existing checked passed fullOf n ≠ ""))
  else existing.map Prod.fst

lemma mem_of_getLast?_eq {α : Type} {l : List α} {a : α}
    (h : l.getLast? = some a) : a ∈ l := by
  have ha : a ∈ l.getLast? := h ▸ rfl
  obtain ⟨hne, rfl⟩ := List.mem_getLast?_eq_getLast ha
  exact List.getLast_mem hne

lemma dictGet_mem {m : LineMap} {n f : String} (h : dictGet m n = some f) :
    (n, f) ∈ m := by
  unfold dictGet at h
  obtain ⟨p, hp, hpf⟩ := Option.map_eq_some'.mp h
  have hpm := mem_of_getLast?_eq hp
  have := List.mem_filter.mp hpm
  obtain ⟨hmem, hfst⟩ := this
  have h1 : p.1 = n := of_decide_eq_true hfst
  cases p
  simp only at h1 hpf
  subst h1; subst hpf; exact hmem

lemma dictGet_isSome_of_mem {m : LineMap} {n : String}
    (h : n ∈ m.map Prod.fst) : dictGet m n ≠ none := by
  obtain ⟨p, hp, hpn⟩ := List.mem_map.mp h
  intro hcon
  unfold dictGet at hcon
  simp at hcon
  obtain ⟨a, b⟩ := p
  exact hcon a b hp hpn

lemma failed_full_of_mem {checked passed : List String}
    (fullOf : String → Option String) {l : String}
    (hl : l ∈ failed_links checked passed) {n : String}
    (hn : normalize_proxy_link l = n) :
    ∃ l', l' ∈ failed_links checked passed ∧ normalize_proxy_link l' = n
      ∧ failed_full checked passed fullOf n = some ((fullOf l').getD l') := by
  have hmem : l ∈ (failed_links checked passed).filter
      (fun l => decide (normalize_proxy_link l = n)) :=
    List.mem_filter.mpr ⟨hl, by simp [hn]⟩
  have hne := List.ne_nil_of_mem hmem
  obtain ⟨l', hl'⟩ : ∃ l', ((failed_links checked passed).filter
      (fun l => decide (normalize_proxy_link l = n))).getLast? = some l' := by
    rw [List.getLast?_eq_getLast_of_ne_nil hne]; exact ⟨_, rfl⟩
  have hl'mem := List.mem_filter.mp (mem_of_getLast?_eq hl')
  refine ⟨l', hl'mem.1, of_decide_eq_true hl'mem.2, ?_⟩
  unfold failed_full
  rw [hl']
  rfl

/-- The stored line of every member of `merged_set` is non-empty, given
that the loaded file lines and the original full lines of failed keys
are non-empty. -/
lemma merged_full_ne_empty {existing : LineMap} {checked passed : List String}
    {fullOf : String → Option String} {n : String}
    (hex : ∀ p ∈ existing, p.2 ≠ "")
    (hfull : ∀ l ∈ checked, l ∉ passed → (fullOf l).getD l ≠ "")
    (hn : n ∈ merged_set existing checked passed) :
    merged_full existing checked passed fullOf n ≠ "" := by
  have hn' := List.mem_filter.mp hn
  have hsrc := List.mem_append.mp hn'.1
  unfold merged_full
  cases hd : dictGet existing n with
  | some f =>
    have hf : f ≠ "" := hex _ (dictGet_mem hd)
    simp [pyOrStr, hf]
  | none =>
    have hnew : n ∈ failed_normalized checked passed := by
      rcases hsrc with h | h
      · exact absurd hd (dictGet_isSome_of_mem h)
      · exact h
    obtain ⟨hmap, _⟩ := List.mem_filter.mp hnew
    obtain ⟨l, hl, hln⟩ := List.mem_map.mp hmap
    obtain ⟨l', hl'f, _, hff⟩ := failed_full_of_mem fullOf hl hln
    have hlc := List.mem_filter.mp hl'f
    have hval : (fullOf l').getD l' ≠ "" :=
      hfull _ hlc.1 (of_decide_eq_true hlc.2)
    simp [pyOrStr, hff, hval]

/-- Membership in the persisted notworkers file, under the same
non-emptiness facts. -/
lemma mem_persisted_iff {existing : LineMap} {checked passed : List String}
    {fullOf : String → Option String} (n : String)
    (hex : ∀ p ∈ existing, p.2 ≠ "")
    (hfull : ∀ l ∈ checked, l ∉ passed → (fullOf l).getD l ≠ "") :
    n ∈ persisted_notworkers existing checked passed fullOf ↔
      ((n ∈ existing.map Prod.fst ∨ n ∈ failed_normalized checked passed)
        ∧ n ∉ available_normalized passed) := by
  unfold persisted_notworkers
  by_cases hguard : failed_links checked passed ≠ [] ∨ available_normalized passed ≠ []
  · rw [if_pos hguard]
    constructor
    · intro h
      have h' := List.mem_filter.mp h
      have hm := List.mem_filter.mp h'.1
      exact ⟨List.mem_append.mp hm.1, of_decide_eq_true hm.2⟩
    · intro ⟨h1, h2⟩
      have hm : n ∈ merged_set existing checked passed :=
        List.mem_filter.mpr ⟨List.mem_append.mpr h1, by simpa using h2⟩
      exact List.mem_filter.mpr ⟨hm, by
        simpa using merged_full_ne_empty hex hfull hm⟩
  · rw [if_neg hguard]
    push_neg at hguard
    obtain ⟨hfl, hav⟩ := hguard
    have hfn : failed_normalized checked passed = [] := by
      unfold failed_normalized
      rw [hfl]; rfl
    simp [hfn, hav]

/-- C2: the set of normalized keys persisted to the notworkers file
equals `(existing ∪ failed) \ passed`; keys already in the file keep
their stored full line, and newly added keys use the original full line
of one of the failed links with that normalization. -/
theorem c2_notworkers_merge (existing : LineMap) (checked passed : List String)
    (fullOf : String → Option String) (n : String)
    (hex : ∀ p ∈ existing, p.2 ≠ "")
    (hfull : ∀ l ∈ checked, l ∉ passed → (fullOf l).getD l ≠ "") :
    (n ∈ persisted_notworkers existing checked passed fullOf ↔
      ((n ∈ existing.map Prod.fst ∨ n ∈ failed_normalized checked passed)
        ∧ n ∉ available_normalized passed))
    ∧ (∀ f, dictGet existing n = some f →
        merged_full existing checked passed fullOf n = f)
    ∧ (dictGet existing n = none → n ∈ merged_set existing checked passed →
        ∃ l, l ∈ checked ∧ l ∉ passed ∧ normalize_proxy_link l = n
          ∧ merged_full existing checked passed fullOf n = (fullOf l).getD l) := by
  refine ⟨mem_persisted_iff n hex hfull, ?_, ?_⟩
  · intro f hd
    have hf : f ≠ "" := hex _ (dictGet_mem hd)
    unfold merged_full
    simp [hd, pyOrStr, hf]
  · intro hd hm
    have hn' := List.mem_filter.mp hm
    have hsrc := List.mem_append.mp hn'.1
    have hnew : n ∈ failed_normalized checked passed := by
      rcases hsrc with h | h
      · exact absurd hd (dictGet_isSome_of_mem h)
      · exact h
    obtain ⟨hmap, _⟩ := List.mem_filter.mp hnew
    obtain ⟨l, hl, hln⟩ := List.mem_map.mp hmap
    obtain ⟨l', hl'f, hl'n, hff⟩ := failed_full_of_mem fullOf hl hln
    have hlc := List.mem_filter.mp hl'f
    refine ⟨l', hlc.1, of_decide_eq_true hlc.2, hl'n, ?_⟩
    unfold merged_full
    simp [hd, pyOrStr, hff]

/-- C2 witness: one stale key self-heals out, one dead key is added with
its full line, one stored key is preserved verbatim. -/
theorem c2_notworkers_merge_witness :
    ("vless://old" ∈
        persisted_notworkers [("vless://old", "vless://old #note")]
          ["vless://dead#x", "vless://old", "vless://live#y"] ["vless://live#y"]
          (fun l => some (l ++ " tail")) ↔
      (("vless://old" ∈
          ([("vless://old", "vless://old #note")] : LineMap).map Prod.fst
        ∨ "vless://old" ∈ failed_normalized
            ["vless://dead#x", "vless://old", "vless://live#y"] ["vless://live#y"])
        ∧ "vless://old" ∉ available_normalized ["vless://live#y"]))
    ∧ (∀ f, dictGet [("vless://old", "vless://old #note")] "vless://old" = some f →
        merged_full [("vless://old", "vless://old #note")]
          ["vless://dead#x", "vless://old", "vless://live#y"] ["vless://live#y"]
          (fun l => some (l ++ " tail")) "vless://old" = f)
    ∧ (dictGet [("vless://old", "vless://old #note")] "vless://old" = none →
        "vless://old" ∈ merged_set [("vless://old", "vless://old #note")]
          ["vless://dead#x", "vless://old", "vless://live#y"] ["vless://live#y"] →
        ∃ l, l ∈ ["vless://dead#x", "vless://old", "vless://live#y"]
          ∧ l ∉ ["vless://live#y"] ∧ normalize_proxy_link l = "vless://old"
          ∧ merged_full [("vless://old", "vless://old #note")]
              ["vless://dead#x", "vless://old", "vless://live#y"] ["vless://live#y"]
              (fun l => some (l ++ " tail")) "vless://old" = (some (l ++ " tail")).getD l) :=
  c2_notworkers_merge [("vless://old", "vless://old #note")]
    ["vless://dead#x", "vless://old", "vless://live#y"] ["vless://live#y"]
    (fun l => some (l ++ " tail")) "vless://old"
    (by decide) (by decide)

/-! ## Run aggregation: the MAX_LATENCY_MS gate (vless_checker.py main)

Each finished worker yields `(link, ok, metrics)`.  The main loop admits
a key into `available` / `available_keys` only when `ok` holds and its
average latency in milliseconds is at most `MAX_LATENCY_MS`
(`vless_checker.py:269-273`, and the same check for the debug-slot first
key at lines 225-231). -/

/-- `format_key_with_metadata`: average of the recorded response times
(seconds) converted to milliseconds, `0` when there are no samples. -/
def avg_latency_ms (ts : List ℚ) : ℚ :=
  if ts = [] then 0 else (ts.sum / ts.length) * 1000

/-- Whether the main loop counts this worker result as passed:
`ok` and `latency <= MAX_LATENCY_MS`. -/
def run_passed (maxL : ℚ) (r : String × Bool × List ℚ) : Bool :=
  r.2.1 && decide (avg_latency_ms r.2.2 ≤ maxL)

/-- The links appended to `available_keys` over the whole run. -/
def run_available_links (maxL : ℚ) (results : List (String × Bool × List ℚ)) :
    List String :=
  (results.filter (run_passed maxL)).map Prod.fst

/-- C10: a key probed alive whose average latency exceeds
`MAX_LATENCY_MS` is excluded from the passed set, and (when no other
passed key shares its normalized form) its normalized form lands in the
persisted notworkers file, exactly like a dead probe. -/
theorem c10_latency_gate (existing : LineMap)
    (results : List (String × Bool × List ℚ))
    (fullOf : String → Option String) (maxL : ℚ) (k : String) (ts : List ℚ)
    (hmem : (k, true, ts) ∈ results)
    (hslow : maxL < avg_latency_ms ts)
    (hnorm : normalize_proxy_link k ≠ "")
    (huniq : ∀ r ∈ results, r.1 = k → r = (k, true, ts))
    (hnodup : ∀ r ∈ results, run_passed maxL r = true → r.1 ≠ k →
      normalize_proxy_link r.1 ≠ normalize_proxy_link k)
    (hfull : ∀ l ∈ results.map Prod.fst, (fullOf l).getD l ≠ "")
    (hex : ∀ p ∈ existing, p.2 ≠ "") :
    k ∉ run_available_links maxL results
    ∧ normalize_proxy_link k ∈
        persisted_notworkers existing (results.map Prod.fst)
          (run_available_links maxL results) fullOf := by
  have hknot : run_passed maxL (k, true, ts) = false := by
    simp [run_passed]
    exact hslow
  have hkfail : k ∉ run_available_links maxL results := by
    intro hk
    obtain ⟨r, hr, hrk⟩ := List.mem_map.mp hk
    have hr' := List.mem_filter.mp hr
    have hrk' : r = (k, true, ts) := huniq r hr'.1 hrk
    rw [hrk'] at hr'
    rw [hknot] at hr'
    exact Bool.false_ne_true hr'.2
  have hnod : ∀ r ∈ results, run_passed maxL r = true →
      normalize_proxy_link r.1 ≠ normalize_proxy_link k := by
    intro r hr hp
    by_cases hrk : r.1 = k
    · have := huniq r hr hrk
      rw [this, hknot] at hp
      exact absurd hp Bool.false_ne_true
    · exact hnodup r hr hp hrk
  refine ⟨hkfail, ?_⟩
  rw [mem_persisted_iff _ hex (fun l hl _ => hfull l hl)]
  constructor
  · right
    apply List.mem_filter.mpr
    refine ⟨?_, by simpa using hnorm⟩
    apply List.mem_map.mpr
    refine ⟨k, ?_, rfl⟩
    apply List.mem_filter.mpr
    refine ⟨List.mem_map.mpr ⟨(k, true, ts), hmem, rfl⟩, by simpa using hkfail⟩
  · intro hav
    have hav' := List.mem_filter.mp hav
    obtain ⟨l, hl, hln⟩ := List.mem_map.mp hav'.1
    obtain ⟨r, hr, hrl⟩ := List.mem_map.mp hl
    have hr' := List.mem_filter.mp hr
    exact hnod r hr'.1 hr'.2 (by rw [hrl, hln])

/-- C10 witness: an alive key with 5-second average latency against
`MAX_LATENCY_MS = 3000` is shut out of the output and pushed into the
notworkers file. -/
theorem c10_latency_gate_witness :
    "vless://slow#t" ∉ run_available_links 3000 [("vless://slow#t", true, [5])]
    ∧ normalize_proxy_link "vless://slow#t" ∈
        persisted_notworkers [] ([("vless://slow#t", true, ([5] : List ℚ))].map Prod.fst)
          (run_available_links 3000 [("vless://slow#t", true, [5])]) (fun l => some l) :=
  c10_latency_gate [] [("vless://slow#t", true, [5])] (fun l => some l) 3000
    "vless://slow#t" [5] (by decide)
    (by norm_num [avg_latency_ms])
    (by decide)
    (by intro r hr hrk; fin_cases hr; rfl)
    (by intro r hr hp hrk; fin_cases hr; exact absurd rfl hrk)
    (by decide) (by decide)

/-! ## Base64 subscription bodies (lib/parsing.py decode_subscription_content)

Feed text is modelled as Lean strings; the byte level of the stdlib
codec is modelled for ASCII text, each character standing for the byte
of its code point (UTF-8 agrees below 128). -/

/-- The standard base64 alphabet. -/
def b64StdChars : List Char :=
  "ABCDEFGHIJKLMNOPQRSTUVWXYZabcdefghijklmnopqrstuvwxyz0123456789+/".data

/-- The URL-safe base64 alphabet. -/
def b64UrlChars : List Char :=
  "ABCDEFGHIJKLMNOPQRSTUVWXYZabcdefghijklmnopqrstuvwxyz0123456789-_".data

/-- The alphabet character of a 6-bit value. -/
def b64Char (alpha : List Char) (v : Nat) : Char := alpha.getD v 'A'

/-- The 6-bit value of an alphabet character, if any. -/
def b64Val (alpha : List Char) (c : Char) : Option Nat := alpha.indexOf? c

/-- Base64 encoding of a byte list, with `=` padding (the form
`base64.b64encode` produces). -/
def b64EncodeChunks (alpha : List Char) : List Nat → List Char
  | [] => []
  | [b1] => [b64Char alpha (b1 / 4), b64Char alpha (b1 % 4 * 16), '=', '=']
  | [b1, b2] => [b64Char alpha (b1 / 4), b64Char alpha (b1 % 4 * 16 + b2 / 16),
                 b64Char alpha (b2 % 16 * 4), '=']
  | b1 :: b2 :: b3 :: rest =>
      b64Char alpha (b1 / 4) :: b64Char alpha (b1 % 4 * 16 + b2 / 16)
        :: b64Char alpha (b2 % 16 * 4 + b3 / 64) :: b64Char alpha (b3 % 64)
        :: b64EncodeChunks alpha rest

/-- Model of the stdlib `base64` decoder (an external library of the
repository): 4-character groups, `=` padding allowed only at the end.
The model is strict — a character outside the alphabet or misplaced
padding fails the decode, where CPython would first discard unknown
characters; on the clean encodings the claims exercise the two agree. -/
def b64DecodeChunks (alpha : List Char) : List Char → Option (List Nat)
  | [] => some []
  | c1 :: c2 :: c3 :: c4 :: rest =>
    match b64Val alpha c1, b64Val alpha c2 with
    | some v1, some v2 =>
      if c3 = '=' then
        if c4 = '=' ∧ rest = [] then some [v1 * 4 + v2 / 16] else none
      else
        match b64Val alpha c3 with
        | some v3 =>
          if c4 = '=' then
            if rest = [] then some [v1 * 4 + v2 / 16, v2 % 16 * 16 + v3 / 4] else none
          else
            match b64Val alpha c4 with
            | some v4 =>
              (b64DecodeChunks alpha rest).map
                (fun bs => (v1 * 4 + v2 / 16) :: (v2 % 16 * 16 + v3 / 4) :: (v3 % 4 * 64 + v4) :: bs)
            | none => none
        | none => none
    | _, _ => none
  | _ => none

/-- Bytes to text (ASCII model of `bytes.decode`). -/
def bytesToChars (bs : List Nat) : List Char := bs.map (fun b => Char.ofNat b)

/-- Text to bytes (ASCII model of `str.encode`). -/
def strToBytes (s : String) : List Nat := s.data.map (fun c => c.toNat)

/-- The padded base64 encoding of a feed body. -/
def b64EncodeStr (alpha : List Char) (s : String) : String :=
  ⟨b64EncodeChunks alpha (strToBytes s)⟩

/-- `parsing.py _SUBSCRIPTION_PROTOCOLS`. -/
def subscriptionProtocols : List String :=
  ["vless://", "vmess://", "trojan://", "ss://", "hysteria://", "hysteria2://", "hy2://"]

/-- Line splitting on a newline character (model of `str.splitlines`;
segments after a trailing newline are empty and skipped by all users). -/
def splitNl : List Char → List (List Char)
  | [] => [[]]
  | c :: rest =>
    match splitNl rest with
    | [] => [[]]
    | seg :: segs => if c = '\n' then [] :: seg :: segs else (c :: seg) :: segs

/-- The lines of a text. -/
def pyLines (s : String) : List String := (splitNl s.data).map (fun cs => ⟨cs⟩)

/-- `parsing.py _content_has_protocol_lines`: some stripped line starts
with a supported scheme. -/
def content_has_protocol_lines (text : String) : Bool :=
  (pyLines text).any (fun line =>
    subscriptionProtocols.any (fun p => charsLead p.data (pyStrip line).data))

/-- The leading whitespace-free token of a character list
(`line.split(maxsplit=1)[0]` on a stripped line). -/
def firstTokenChars (cs : List Char) : List Char :=
  cs.takeWhile (fun c => !c.isWhitespace)

/-- `parsing.py parse_proxy_lines`: the `(link, full_line)` pairs of the
scheme-prefixed lines. -/
def parse_proxy_lines (text : String) : List (String × String) :=
  (pyLines text).foldl (fun acc l =>
    let line := pyStrip l
    if line = "" then acc
    else if subscriptionProtocols.any (fun p => charsLead p.data line.data) then
      let link : String := ⟨pyStripChars (firstTokenChars line.data)⟩
      if link = "" then acc else acc ++ [(link, line)]
    else acc) []

/-- `"".join(text.split())`: drop every whitespace character. -/
def removeWhitespace (s : String) : String :=
  ⟨s.data.filter (fun c => !c.isWhitespace)⟩

/-- Padding normalization before decode: pad with `=` to a multiple of 4. -/
def padB64 (s : String) : String :=
  if s.data.length % 4 = 0 then s
  else ⟨s.data ++ List.replicate (4 - s.data.length % 4) '='⟩

/-- One decode attempt of the `for encoding in (standard, urlsafe)` loop:
pad, decode, strip; accept only a non-empty result carrying scheme lines. -/
def tryB64 (alpha : List Char) (raw : String) : Option String :=
  match b64DecodeChunks alpha (padB64 raw).data with
  | none => none
  | some bytes =>
    let decoded := pyStrip ⟨bytesToChars bytes⟩
    if decoded ≠ "" ∧ content_has_protocol_lines decoded then some decoded else none

/-- `parsing.py decode_subscription_content`. -/
def decode_subscription_content (text : String) : String :=
  if text = "" ∨ pyStrip text = "" then text
  else
    let t := pyStrip text
    if content_has_protocol_lines t then t
    else
      let raw := removeWhitespace t
      match tryB64 b64StdChars raw with
      | some d => d
      | none =>
        match tryB64 b64UrlChars raw with
        | some d => d
        | none => t

lemma b64Val_std_char : ∀ v < 64, b64Val b64StdChars (b64Char b64StdChars v) = some v := by
  decide

lemma b64Val_url_char : ∀ v < 64, b64Val b64UrlChars (b64Char b64UrlChars v) = some v := by
  decide

lemma b64Char_std_ne_pad : ∀ v < 64, b64Char b64StdChars v ≠ '=' := by
  decide

lemma b64Char_url_ne_pad : ∀ v < 64, b64Char b64UrlChars v ≠ '=' := by
  decide

lemma b64Char_url_cases : ∀ v < 64,
    b64Char b64UrlChars v = b64Char b64StdChars v
    ∨ b64Val b64StdChars (b64Char b64UrlChars v) = none := by
  decide

/-- Any valid base64 alphabet decodes its own encodings back to the
original bytes. -/
theorem b64_roundtrip (alpha : List Char)
    (hval : ∀ v < 64, b64Val alpha (b64Char alpha v) = some v)
    (hne : ∀ v < 64, b64Char alpha v ≠ '=') :
    ∀ bs : List Nat, (∀ b ∈ bs, b < 256) →
      b64DecodeChunks alpha (b64EncodeChunks alpha bs) = some bs
  | [] => fun _ => rfl
  | [b1] => fun hb => by
      have h1 : b1 < 256 := hb b1 (by simp)
      simp only [b64EncodeChunks, b64DecodeChunks]
      rw [hval _ (show b1 / 4 < 64 by omega), hval _ (show b1 % 4 * 16 < 64 by omega)]
      simp
      omega
  | [b1, b2] => fun hb => by
      have h1 : b1 < 256 := hb b1 (by simp)
      have h2 : b2 < 256 := hb b2 (by simp)
      simp only [b64EncodeChunks, b64DecodeChunks]
      rw [hval _ (show b1 / 4 < 64 by omega),
        hval _ (show b1 % 4 * 16 + b2 / 16 < 64 by omega),
        hval _ (show b2 % 16 * 4 < 64 by omega)]
      have hc3 : b64Char alpha (b2 % 16 * 4) ≠ '=' := hne _ (by omega)
      simp [hc3]
      omega
  | b1 :: b2 :: b3 :: rest => fun hb => by
      have h1 : b1 < 256 := hb b1 (by simp)
      have h2 : b2 < 256 := hb b2 (by simp)
      have h3 : b3 < 256 := hb b3 (by simp)
      have hrest : ∀ b ∈ rest, b < 256 := fun b hb' => hb b (by simp [hb'])
      have ih := b64_roundtrip alpha hval hne rest hrest
      simp only [b64EncodeChunks, b64DecodeChunks]
      rw [hval _ (show b1 / 4 < 64 by omega),
        hval _ (show b1 % 4 * 16 + b2 / 16 < 64 by omega),
        hval _ (show b2 % 16 * 4 + b3 / 64 < 64 by omega),
        hval _ (show b3 % 64 < 64 by omega), ih]
      have hc3 : b64Char alpha (b2 % 16 * 4 + b3 / 64) ≠ '=' := hne _ (by omega)
      have hc4 : b64Char alpha (b3 % 64) ≠ '=' := hne _ (by omega)
      simp [hc3, hc4]
      omega

lemma b64Char_mem {alpha : List Char} (hA : 'A' ∈ alpha) (v : Nat) :
    b64Char alpha v ∈ alpha := by
  unfold b64Char
  rcases Nat.lt_or_ge v alpha.length with h | h
  · rw [List.getD_eq_getElem _ _ h]
    exact List.getElem_mem h
  · rw [List.getD_eq_default _ _ h]
    exact hA

lemma encode_chars_mem {alpha : List Char} (hA : 'A' ∈ alpha) :
    ∀ bs : List Nat, ∀ c ∈ b64EncodeChunks alpha bs, c ∈ alpha ∨ c = '='
  | [] => by simp [b64EncodeChunks]
  | [b1] => by
      intro c hc
      simp only [b64EncodeChunks, List.mem_cons, List.not_mem_nil, or_false] at hc
      rcases hc with rfl | rfl | rfl | rfl
      · exact Or.inl (b64Char_mem hA _)
      · exact Or.inl (b64Char_mem hA _)
      · exact Or.inr rfl
      · exact Or.inr rfl
  | [b1, b2] => by
      intro c hc
      simp only [b64EncodeChunks, List.mem_cons, List.not_mem_nil, or_false] at hc
      rcases hc with rfl | rfl | rfl | rfl
      · exact Or.inl (b64Char_mem hA _)
      · exact Or.inl (b64Char_mem hA _)
      · exact Or.inl (b64Char_mem hA _)
      · exact Or.inr rfl
  | b1 :: b2 :: b3 :: rest => by
      intro c hc
      simp only [b64EncodeChunks, List.mem_cons] at hc
      rcases hc with rfl | rfl | rfl | rfl | hc
      · exact Or.inl (b64Char_mem hA _)
      · exact Or.inl (b64Char_mem hA _)
      · exact Or.inl (b64Char_mem hA _)
      · exact Or.inl (b64Char_mem hA _)
      · exact encode_chars_mem hA rest c hc

lemma std_no_ws : ∀ c ∈ b64StdChars, c.isWhitespace = false := by decide

lemma url_no_ws : ∀ c ∈ b64UrlChars, c.isWhitespace = false := by decide

lemma std_no_colon : ':' ∉ b64StdChars := by decide

lemma url_no_colon : ':' ∉ b64UrlChars := by decide

lemma std_hasA : 'A' ∈ b64StdChars := by decide

lemma url_hasA : 'A' ∈ b64UrlChars := by decide

lemma encode_no_ws {alpha : List Char} (hA : 'A' ∈ alpha)
    (hws : ∀ c ∈ alpha, c.isWhitespace = false) (bs : List Nat) :
    ∀ c ∈ b64EncodeChunks alpha bs, c.isWhitespace = false := by
  intro c hc
  rcases encode_chars_mem hA bs c hc with h | rfl
  · exact hws c h
  · decide

lemma encode_no_colon {alpha : List Char} (hA : 'A' ∈ alpha)
    (hcol : ':' ∉ alpha) (bs : List Nat) :
    ':' ∉ b64EncodeChunks alpha bs := by
  intro hc
  rcases encode_chars_mem hA bs ':' hc with h | h
  · exact hcol h
  · exact absurd h (by decide)

lemma dropWhile_eq_of_none {p : Char → Bool} {cs : List Char}
    (h : ∀ c ∈ cs, p c = false) : cs.dropWhile p = cs := by
  cases cs with
  | nil => rfl
  | cons c rest => simp [List.dropWhile_cons, h c (List.mem_cons_self _ _)]

lemma pyStripChars_eq_of_nows {cs : List Char}
    (h : ∀ c ∈ cs, c.isWhitespace = false) : pyStripChars cs = cs := by
  unfold pyStripChars
  rw [dropWhile_eq_of_none h,
    dropWhile_eq_of_none (fun c hc => h c (List.mem_reverse.mp hc)),
    List.reverse_reverse]

lemma strMk_data (s : String) : (⟨s.data⟩ : String) = s := by
  cases s; rfl

lemma mem_of_mem_dropWhile {p : Char → Bool} {cs : List Char} {c : Char}
    (h : c ∈ cs.dropWhile p) : c ∈ cs := by
  induction cs with
  | nil => simp at h
  | cons d rest ih =>
    rw [List.dropWhile_cons] at h
    by_cases hd : p d = true
    · rw [if_pos hd] at h
      exact List.mem_cons_of_mem _ (ih h)
    · rw [if_neg hd] at h
      exact h

lemma mem_of_pyStripChars {cs : List Char} {c : Char}
    (h : c ∈ pyStripChars cs) : c ∈ cs := by
  unfold pyStripChars at h
  rw [List.mem_reverse] at h
  have h := mem_of_mem_dropWhile h
  rw [List.mem_reverse] at h
  exact mem_of_mem_dropWhile h

lemma mem_of_charsLead : ∀ {pd cs : List Char}, charsLead pd cs = true →
    ∀ x ∈ pd, x ∈ cs := by
  intro pd
  induction pd with
  | nil => intro cs _ x hx; simp at hx
  | cons p ps ih =>
    intro cs h x hx
    cases cs with
    | nil => simp [charsLead] at h
    | cons d ds =>
      simp only [charsLead, Bool.and_eq_true, beq_iff_eq] at h
      obtain ⟨rfl, hrest⟩ := h
      rcases List.mem_cons.mp hx with rfl | hx'
      · exact List.mem_cons_self _ _
      · exact List.mem_cons_of_mem _ (ih hrest x hx')

lemma splitNl_chars : ∀ (cs : List Char), ∀ seg ∈ splitNl cs, ∀ c ∈ seg, c ∈ cs
  | [] => by
      intro seg hseg c hc
      simp [splitNl] at hseg
      subst hseg
      simp at hc
  | d :: rest => by
      intro seg hseg c hc
      have ih := splitNl_chars rest
      cases hrest : splitNl rest with
      | nil =>
        simp only [splitNl, hrest] at hseg
        simp at hseg
        subst hseg
        simp at hc
      | cons s0 ss =>
        simp only [splitNl, hrest] at hseg
        by_cases hd : d = '\n'
        · rw [if_pos hd] at hseg
          rcases List.mem_cons.mp hseg with rfl | hseg'
          · simp at hc
          · have : c ∈ rest := ih seg (hrest ▸ hseg') c hc
            exact List.mem_cons_of_mem _ this
        · rw [if_neg hd] at hseg
          rcases List.mem_cons.mp hseg with rfl | hseg'
          · rcases List.mem_cons.mp hc with rfl | hc'
            · exact List.mem_cons_self _ _
            · have : c ∈ rest := ih s0 (hrest ▸ List.mem_cons_self _ _) c hc'
              exact List.mem_cons_of_mem _ this
          · have : c ∈ rest := ih seg (hrest ▸ List.mem_cons_of_mem _ hseg') c hc
            exact List.mem_cons_of_mem _ this

lemma proto_colon : ∀ p ∈ subscriptionProtocols, ':' ∈ p.data := by decide

lemma no_proto_of_no_colon {s : String} (h : ':' ∉ s.data) :
    content_has_protocol_lines s = false := by
  unfold content_has_protocol_lines
  rw [List.any_eq_false]
  intro line hline
  intro hany
  rw [List.any_eq_true] at hany
  obtain ⟨p, hp, hlead⟩ := hany
  have h1 : ':' ∈ (pyStrip line).data := mem_of_charsLead hlead ':' (proto_colon p hp)
  have h2 : ':' ∈ line.data := mem_of_pyStripChars h1
  obtain ⟨seg, hseg, rfl⟩ := List.mem_map.mp hline
  exact h (splitNl_chars _ seg hseg ':' h2)

lemma encode_len_mod4 (alpha : List Char) :
    ∀ bs : List Nat, (b64EncodeChunks alpha bs).length % 4 = 0
  | [] => rfl
  | [b1] => by simp [b64EncodeChunks]
  | [b1, b2] => by simp [b64EncodeChunks]
  | b1 :: b2 :: b3 :: rest => by
      have ih := encode_len_mod4 alpha rest
      simp only [b64EncodeChunks, List.length_cons]
      omega

lemma encode_ne_nil (alpha : List Char) :
    ∀ bs : List Nat, bs ≠ [] → b64EncodeChunks alpha bs ≠ []
  | [], h => absurd rfl h
  | [_], _ => by simp [b64EncodeChunks]
  | [_, _], _ => by simp [b64EncodeChunks]
  | _ :: _ :: _ :: _, _ => by simp [b64EncodeChunks]

/-- Decoding a URL-safe encoding with the standard alphabet either fails
(the encoding contains `-` or `_`) or the two encodings coincide. -/
lemma decode_std_of_encode_url :
    ∀ bs : List Nat, (∀ b ∈ bs, b < 256) →
      b64DecodeChunks b64StdChars (b64EncodeChunks b64UrlChars bs) = none
      ∨ b64EncodeChunks b64UrlChars bs = b64EncodeChunks b64StdChars bs
  | [] => fun _ => Or.inr rfl
  | [b1] => fun hb => by
      have h1 : b1 < 256 := hb b1 (by simp)
      rcases b64Char_url_cases (b1 / 4) (by omega) with e1 | n1
      · rcases b64Char_url_cases (b1 % 4 * 16) (by omega) with e2 | n2
        · exact Or.inr (by simp [b64EncodeChunks, e1, e2])
        · refine Or.inl ?_
          simp only [b64EncodeChunks, b64DecodeChunks]
          rw [e1, b64Val_std_char _ (by omega : b1 / 4 < 64), n2]
      · refine Or.inl ?_
        simp only [b64EncodeChunks, b64DecodeChunks]
        rw [n1]
  | [b1, b2] => fun hb => by
      have h1 : b1 < 256 := hb b1 (by simp)
      have h2 : b2 < 256 := hb b2 (by simp)
      rcases b64Char_url_cases (b1 / 4) (by omega) with e1 | n1
      · rcases b64Char_url_cases (b1 % 4 * 16 + b2 / 16) (by omega) with e2 | n2
        · rcases b64Char_url_cases (b2 % 16 * 4) (by omega) with e3 | n3
          · exact Or.inr (by simp [b64EncodeChunks, e1, e2, e3])
          · refine Or.inl ?_
            simp only [b64EncodeChunks, b64DecodeChunks]
            rw [e1, b64Val_std_char _ (by omega : b1 / 4 < 64),
              e2, b64Val_std_char _ (by omega : b1 % 4 * 16 + b2 / 16 < 64)]
            have hc3 : b64Char b64UrlChars (b2 % 16 * 4) ≠ '=' :=
              b64Char_url_ne_pad _ (by omega)
            simp [hc3, n3]
        · refine Or.inl ?_
          simp only [b64EncodeChunks, b64DecodeChunks]
          rw [e1, b64Val_std_char _ (by omega : b1 / 4 < 64), n2]
      · refine Or.inl ?_
        simp only [b64EncodeChunks, b64DecodeChunks]
        rw [n1]
  | b1 :: b2 :: b3 :: rest => fun hb => by
      have h1 : b1 < 256 := hb b1 (by simp)
      have h2 : b2 < 256 := hb b2 (by simp)
      have h3 : b3 < 256 := hb b3 (by simp)
      have hrest : ∀ b ∈ rest, b < 256 := fun b hb' => hb b (by simp [hb'])
      rcases b64Char_url_cases (b1 / 4) (by omega) with e1 | n1
      · rcases b64Char_url_cases (b1 % 4 * 16 + b2 / 16) (by omega) with e2 | n2
        · rcases b64Char_url_cases (b2 % 16 * 4 + b3 / 64) (by omega) with e3 | n3
          · rcases b64Char_url_cases (b3 % 64) (by omega) with e4 | n4
            · rcases decode_std_of_encode_url rest hrest with ihl | ihr
              · refine Or.inl ?_
                simp only [b64EncodeChunks, b64DecodeChunks]
                rw [e1, b64Val_std_char _ (by omega : b1 / 4 < 64),
                  e2, b64Val_std_char _ (by omega : b1 % 4 * 16 + b2 / 16 < 64),
                  e3, b64Val_std_char _ (by omega : b2 % 16 * 4 + b3 / 64 < 64),
                  e4, b64Val_std_char _ (by omega : b3 % 64 < 64)]
                have hc3 : b64Char b64StdChars (b2 % 16 * 4 + b3 / 64) ≠ '=' :=
                  b64Char_std_ne_pad _ (by omega)
                have hc4 : b64Char b64StdChars (b3 % 64) ≠ '=' :=
                  b64Char_std_ne_pad _ (by omega)
                simp [hc3, hc4, ihl]
              · exact Or.inr (by simp [b64EncodeChunks, e1, e2, e3, e4, ihr])
            · refine Or.inl ?_
              simp only [b64EncodeChunks, b64DecodeChunks]
              rw [e1, b64Val_std_char _ (by omega : b1 / 4 < 64),
                e2, b64Val_std_char _ (by omega : b1 % 4 * 16 + b2 / 16 < 64),
                e3, b64Val_std_char _ (by omega : b2 % 16 * 4 + b3 / 64 < 64)]
              have hc3 : b64Char b64StdChars (b2 % 16 * 4 + b3 / 64) ≠ '=' :=
                b64Char_std_ne_pad _ (by omega)
              have hc4 : b64Char b64UrlChars (b3 % 64) ≠ '=' :=
                b64Char_url_ne_pad _ (by omega)
              simp [hc3, hc4, n4]
          · refine Or.inl ?_
            simp only [b64EncodeChunks, b64DecodeChunks]
            rw [e1, b64Val_std_char _ (by omega : b1 / 4 < 64),
              e2, b64Val_std_char _ (by omega : b1 % 4 * 16 + b2 / 16 < 64)]
            have hc3 : b64Char b64UrlChars (b2 % 16 * 4 + b3 / 64) ≠ '=' :=
              b64Char_url_ne_pad _ (by omega)
            simp [hc3, n3]
        · refine Or.inl ?_
          simp only [b64EncodeChunks, b64DecodeChunks]
          rw [e1, b64Val_std_char _ (by omega : b1 / 4 < 64), n2]
      · refine Or.inl ?_
        simp only [b64EncodeChunks, b64DecodeChunks]
        rw [n1]

lemma bytes_chars_id (s : String) : bytesToChars (strToBytes s) = s.data := by
  unfold bytesToChars strToBytes
  rw [List.map_map]
  simp [Function.comp_def]

lemma strToBytes_lt {s : String} (hascii : ∀ c ∈ s.data, c.toNat < 128) :
    ∀ b ∈ strToBytes s, b < 256 := by
  intro b hb
  obtain ⟨c, hc, rfl⟩ := List.mem_map.mp hb
  have := hascii c hc
  omega

lemma eq_empty_of_data_nil {s : String} (hd : s.data = []) : s = "" := by
  have h1 := strMk_data s
  rw [hd] at h1
  rw [← h1]

lemma tryB64_eval_some {alpha' : List Char} {raw : String} {bs : List Nat}
    (hd : b64DecodeChunks alpha' (padB64 raw).data = some bs)
    (hne : pyStrip ⟨bytesToChars bs⟩ ≠ "")
    (hp : content_has_protocol_lines (pyStrip ⟨bytesToChars bs⟩) = true) :
    tryB64 alpha' raw = some (pyStrip ⟨bytesToChars bs⟩) := by
  unfold tryB64
  rw [hd]
  simp [hne, hp]

lemma tryB64_eval_none {alpha' : List Char} {raw : String}
    (hd : b64DecodeChunks alpha' (padB64 raw).data = none) :
    tryB64 alpha' raw = none := by
  unfold tryB64
  rw [hd]

lemma decode_subscription_proto {text : String}
    (h1 : ¬ (text = "" ∨ pyStrip text = ""))
    (h2 : content_has_protocol_lines (pyStrip text) = true) :
    decode_subscription_content text = pyStrip text := by
  unfold decode_subscription_content
  rw [if_neg h1]
  simp only [h2, if_true]

lemma decode_subscription_eval {text : String}
    (h1 : ¬ (text = "" ∨ pyStrip text = ""))
    (h2 : content_has_protocol_lines (pyStrip text) = false) :
    decode_subscription_content text =
      (match tryB64 b64StdChars (removeWhitespace (pyStrip text)) with
       | some d => d
       | none => match tryB64 b64UrlChars (removeWhitespace (pyStrip text)) with
         | some d => d
         | none => pyStrip text) := by
  unfold decode_subscription_content
  rw [if_neg h1]
  simp only [h2, Bool.false_eq_true, if_false]

/-- Ingestion of a clean base64-wrapped body: when the wrapped body is
non-blank and carries scheme lines, decoding recovers the stripped body. -/
lemma decode_subscription_of_encode {B : String} {alpha : List Char}
    (hA : 'A' ∈ alpha) (hws : ∀ c ∈ alpha, c.isWhitespace = false)
    (hcol : ':' ∉ alpha)
    (hBne : pyStrip B ≠ "")
    (hproto : content_has_protocol_lines (pyStrip B) = true)
    (hdec : b64DecodeChunks b64StdChars (b64EncodeChunks alpha (strToBytes B))
          = some (strToBytes B)
      ∨ (b64DecodeChunks b64StdChars (b64EncodeChunks alpha (strToBytes B)) = none
        ∧ b64DecodeChunks b64UrlChars (b64EncodeChunks alpha (strToBytes B))
          = some (strToBytes B))) :
    decode_subscription_content (b64EncodeStr alpha B) = pyStrip B := by
  have hBnn : B ≠ "" := by
    intro hB
    rw [hB] at hBne
    exact hBne (by decide)
  have hbsne : strToBytes B ≠ [] := by
    unfold strToBytes
    intro hc
    exact hBnn (eq_empty_of_data_nil (List.map_eq_nil_iff.mp hc))
  have hence := encode_ne_nil alpha (strToBytes B) hbsne
  have hdata : (b64EncodeStr alpha B).data = b64EncodeChunks alpha (strToBytes B) := rfl
  have hnows : ∀ c ∈ (b64EncodeStr alpha B).data, c.isWhitespace = false := by
    rw [hdata]
    exact encode_no_ws hA hws _
  have hencne : b64EncodeStr alpha B ≠ "" := by
    intro hc
    exact hence (by rw [← hdata, hc])
  have hstrip : pyStrip (b64EncodeStr alpha B) = b64EncodeStr alpha B := by
    unfold pyStrip
    rw [pyStripChars_eq_of_nows hnows, strMk_data]
  have hnop : content_has_protocol_lines (b64EncodeStr alpha B) = false := by
    apply no_proto_of_no_colon
    rw [hdata]
    exact encode_no_colon hA hcol _
  have hrws : removeWhitespace (b64EncodeStr alpha B) = b64EncodeStr alpha B := by
    unfold removeWhitespace
    rw [List.filter_eq_self.mpr (by intro c hc; simp [hnows c hc]), strMk_data]
  have hpad : padB64 (b64EncodeStr alpha B) = b64EncodeStr alpha B := by
    unfold padB64
    rw [if_pos]
    rw [hdata]
    exact encode_len_mod4 _ _
  have hdecoded : (⟨bytesToChars (strToBytes B)⟩ : String) = B := by
    rw [bytes_chars_id, strMk_data]
  rw [decode_subscription_eval (by push_neg; exact ⟨hencne, by rw [hstrip]; exact hencne⟩)
    (by rw [hstrip]; exact hnop)]
  rw [hstrip, hrws]
  rcases hdec with hstdok | ⟨hstdno, hurlok⟩
  · rw [tryB64_eval_some (by rw [hpad, hdata]; exact hstdok)
      (by rw [hdecoded]; exact hBne) (by rw [hdecoded]; exact hproto)]
    rw [hdecoded]
  · rw [tryB64_eval_none (by rw [hpad, hdata]; exact hstdno)]
    rw [tryB64_eval_some (by rw [hpad, hdata]; exact hurlok)
      (by rw [hdecoded]; exact hBne) (by rw [hdecoded]; exact hproto)]
    rw [hdecoded]

/-- C6 counterexample: a body whose single line is a proxy URI followed
by a newline is returned stripped, not unchanged. -/
theorem c6_counterexample :
    decode_subscription_content "vless://a\n" ≠ "vless://a\n" := by
  decide

/-- C6 (amended): ingesting the padded standard or URL-safe Base64
encoding of an ASCII body `B` carrying scheme lines yields exactly the
ingestion of `B` itself — the same decoded text and the same candidate
key list; and a body already carrying scheme lines, or one whose decode
attempts yield no scheme lines, is kept unchanged apart from the
stripping of surrounding whitespace. -/
theorem c6_base64_ingestion (B C : String)
    (hascii : ∀ c ∈ B.data, c.toNat < 128)
    (hBne : pyStrip B ≠ "")
    (hBproto : content_has_protocol_lines (pyStrip B) = true)
    (hCnoproto : content_has_protocol_lines (pyStrip C) = false)
    (hCstd : tryB64 b64StdChars (removeWhitespace (pyStrip C)) = none)
    (hCurl : tryB64 b64UrlChars (removeWhitespace (pyStrip C)) = none) :
    decode_subscription_content (b64EncodeStr b64StdChars B)
        = decode_subscription_content B
    ∧ decode_subscription_content (b64EncodeStr b64UrlChars B)
        = decode_subscription_content B
    ∧ parse_proxy_lines (decode_subscription_content (b64EncodeStr b64StdChars B))
        = parse_proxy_lines (decode_subscription_content B)
    ∧ parse_proxy_lines (decode_subscription_content (b64EncodeStr b64UrlChars B))
        = parse_proxy_lines (decode_subscription_content B)
    ∧ decode_subscription_content B = pyStrip B
    ∧ (decode_subscription_content C = C ∨ decode_subscription_content C = pyStrip C) := by
  have hBnn : B ≠ "" := by
    intro hB
    rw [hB] at hBne
    exact hBne (by decide)
  have hbytes := strToBytes_lt hascii
  have hdirect : decode_subscription_content B = pyStrip B :=
    decode_subscription_proto (by push_neg; exact ⟨hBnn, hBne⟩) hBproto
  have hstd : decode_subscription_content (b64EncodeStr b64StdChars B) = pyStrip B := by
    apply decode_subscription_of_encode std_hasA std_no_ws std_no_colon hBne hBproto
    exact Or.inl (b64_roundtrip b64StdChars b64Val_std_char b64Char_std_ne_pad _ hbytes)
  have hurl : decode_subscription_content (b64EncodeStr b64UrlChars B) = pyStrip B := by
    apply decode_subscription_of_encode url_hasA url_no_ws url_no_colon hBne hBproto
    rcases decode_std_of_encode_url (strToBytes B) hbytes with hno | heq
    · exact Or.inr ⟨hno,
        b64_roundtrip b64UrlChars b64Val_url_char b64Char_url_ne_pad _ hbytes⟩
    · rw [heq]
      exact Or.inl (b64_roundtrip b64StdChars b64Val_std_char b64Char_std_ne_pad _ hbytes)
  refine ⟨hstd.trans hdirect.symm, hurl.trans hdirect.symm, ?_, ?_, hdirect, ?_⟩
  · rw [hstd.trans hdirect.symm]
  · rw [hurl.trans hdirect.symm]
  · by_cases hC : C = "" ∨ pyStrip C = ""
    · left
      unfold decode_subscription_content
      rw [if_pos hC]
    · right
      rw [decode_subscription_eval hC hCnoproto, hCstd, hCurl]

/-- C6 witness: a two-line feed body round-trips through both base64
alphabets, and a non-base64 body without scheme lines is kept (stripped). -/
theorem c6_base64_ingestion_witness :
    decode_subscription_content (b64EncodeStr b64StdChars "vless://u@h:443?x=1\nvmess://k\n")
        = decode_subscription_content "vless://u@h:443?x=1\nvmess://k\n"
    ∧ decode_subscription_content (b64EncodeStr b64UrlChars "vless://u@h:443?x=1\nvmess://k\n")
        = decode_subscription_content "vless://u@h:443?x=1\nvmess://k\n"
    ∧ parse_proxy_lines (decode_subscription_content
          (b64EncodeStr b64StdChars "vless://u@h:443?x=1\nvmess://k\n"))
        = parse_proxy_lines (decode_subscription_content "vless://u@h:443?x=1\nvmess://k\n")
    ∧ parse_proxy_lines (decode_subscription_content
          (b64EncodeStr b64UrlChars "vless://u@h:443?x=1\nvmess://k\n"))
        = parse_proxy_lines (decode_subscription_content "vless://u@h:443?x=1\nvmess://k\n")
    ∧ decode_subscription_content "vless://u@h:443?x=1\nvmess://k\n"
        = pyStrip "vless://u@h:443?x=1\nvmess://k\n"
    ∧ (decode_subscription_content "hello" = "hello"
       ∨ decode_subscription_content "hello" = pyStrip "hello") :=
  c6_base64_ingestion "vless://u@h:443?x=1\nvmess://k\n" "hello"
    (by decide) (by decide) (by decide) (by decide) (by decide) (by decide)

/-! ## The key-check engine (lib/checker.py check_key_e2e)

The engine is embedded with an explicit state and an oracle `Env` that
fixes the behaviour of everything outside the program: the outcome of
each HTTP request, the relay child process, the clock, the TCP connect
of the hysteria probe, and `parse_proxy_url` (whose internals no claim
depends on; the source guarantees it yields one of the six protocols or
`None`).  The body of the big `try` operates on `BodySt`, which carries
no port pool: the source body never touches the pool, and the take /
return pairing of claim C7 lives entirely in the wrapper.  Exceptions
are modelled with `Except`: an `.error` value is an exception
propagating to the enclosing handler. -/

inductive Protocol | vless | vmess | trojan | shadowsocks | hysteria | hysteria2
deriving DecidableEq, Repr

/-- The fields of a parsed proxy URI that the engine inspects. -/
structure Parsed where
  protocol : Protocol
  address : String
  port : Nat
deriving DecidableEq, Repr

/-- lib/cache.py entry: `{result, timestamp}`; `result` is optional
because a hand-edited JSON file may omit it. -/
structure CacheEntry where
  result : Option Bool
  timestamp : ℚ
deriving DecidableEq, Repr

abbrev Cache := List (String × CacheEntry)

/-- Python dict lookup on the cache (later bindings win). -/
def cacheGet (c : Cache) (k : String) : Option CacheEntry :=
  ((c.filter (fun p => decide (p.1 = k))).getLast?).map (fun p => p.2)

/-- Python dict store on the cache. -/
def cacheSet (c : Cache) (k : String) (e : CacheEntry) : Cache := c ++ [(k, e)]

/-- lib/cache.py check_cache. -/
def check_cache (enable : Bool) (ttl : ℚ) (now : ℚ) (key_hash : String)
    (cache : Cache) : Option Bool :=
  if ¬ enable then none
  else match cacheGet cache key_hash with
    | none => none
    | some e => if now - e.timestamp < ttl then e.result else none

/-- The configuration globals of lib/config.py used by the engine.
Durations and rate limits that only meet float arithmetic are embedded
as rationals; loop counts stay integers. -/
structure Config where
  ENABLE_CACHE : Bool
  CACHE_TTL : ℚ
  USE_ADAPTIVE_TIMEOUT : Bool
  CONNECT_TIMEOUT : ℚ
  CONNECT_TIMEOUT_SLOW : ℚ
  STRONG_STYLE_TEST : Bool
  STRONG_MAX_RESPONSE_TIME : ℚ
  MAX_RESPONSE_TIME : ℚ
  STRONG_ATTEMPTS : Int
  TEST_URLS : List String
  TEST_URLS_HTTPS : List String
  TEST_URL : String
  STABILITY_CHECKS : Int
  REQUESTS_PER_URL : Int
  MAX_RETRIES : Int
  MIN_SUCCESSFUL_REQUESTS : Int
  MIN_SUCCESSFUL_URLS : Int
  STRICT_MODE : Bool
  STRICT_MODE_REQUIRE_ALL : Bool
  REQUIRE_HTTPS : Bool
  TEST_POST_REQUESTS : Bool
  CHECK_GEOLOCATION : Bool
  ALLOWED_COUNTRIES : List String
  MIN_RESPONSE_SIZE : Int
  MIN_AVG_RESPONSE_TIME : ℚ
  BASE_PORT : Nat
  MAX_WORKERS : Nat

/-- A geolocation record; `country` is `""` when the service returned
none (Python `geolocation.get("country", "")`). -/
structure GeoRec where
  ip : String
  country : String
deriving DecidableEq, Repr

/-- lib/utils.py check_geolocation_allowed. -/
def check_geolocation_allowed (geolocation : Option GeoRec)
    (allowed : List String) : Bool :=
  if allowed = [] then true
  else match geolocation with
    | none => false
    | some g => decide (g.country.toUpper ∈ allowed)

/-- The metrics dictionary built by check_key_e2e. -/
structure Metrics where
  response_times : List ℚ
  geolocation : Option GeoRec
  successful_urls : Nat
  failed_urls : Nat
  total_requests : Nat
  successful_requests : Nat
  cached : Bool
  avg_response_time : Option ℚ
deriving DecidableEq, Repr

/-- checker.py lines 112-120. -/
def initMetrics : Metrics := ⟨[], none, 0, 0, 0, 0, false, none⟩

/-- checker.py lines 101-109 (the cache-hit metrics). -/
def cachedMetrics : Metrics := ⟨[], none, 0, 0, 0, 0, true, none⟩

/-- The exceptions the handlers of check_key_e2e distinguish. -/
inductive PyExc | fileNotFound | other
deriving DecidableEq, Repr

/-- Oracle outcome of one `make_request`: a response, a caught
`requests.RequestException` (with its `is_connection_error` verdict), or
an exception escaping `make_request` itself. -/
inductive HttpOutcome
  | ok (r : Response) (elapsed : ℚ)
  | exc (isConn : Bool) (elapsed : ℚ)
  | raised
deriving DecidableEq, Repr

/-- Oracle outcome of `run_xray` plus the startup wait. -/
inductive SpawnOutcome
  | ok (exitsDuringWait : Bool)
  | fileNotFound
  | raised
deriving DecidableEq, Repr

/-- The oracle: everything the engine observes from outside. -/
structure Env where
  cfg : Config
  parse : String → Option Parsed
  keyHash : String → String
  now : ℚ
  hysteriaConnect : Option ℚ
  configWriteFails : Bool
  spawn : SpawnOutcome
  http : Nat → HttpOutcome
  geo : Nat → Option GeoRec

/-- Observable calls of the body (parse, spawn, HTTP, kill, cache write). -/
inductive BodyEvent
  | parseCall
  | spawned
  | httpRequest
  | killRelay
  | cacheWrite
deriving DecidableEq, Repr

/-- Port-pool traffic of one check. -/
inductive PortEvent
  | takeOk (p : Nat)
  | takeFail
  | ret (p : Nat)
deriving DecidableEq, Repr

/-- State touched by the guarded body: the live-process registry, the
in-memory verdict cache, an event log, and the oracle cursors. -/
structure BodySt where
  active : List (Nat × Nat)
  cache : Option Cache
  events : List BodyEvent
  nextProc : Nat
  httpCount : Nat
  geoCount : Nat
deriving DecidableEq, Repr

/-- Full engine state: the port pool and its event log, plus `BodySt`. -/
structure St where
  port_pool : List Nat
  portEvents : List PortEvent
  body : BodySt
deriving DecidableEq, Repr

/-- port_pool.py: `list(range(BASE_PORT, BASE_PORT + MAX_WORKERS))`. -/
def init_port_pool (cfg : Config) : List Nat :=
  List.range' cfg.BASE_PORT cfg.MAX_WORKERS

/-- port_pool.py take_port: `pop()` from the end; `None` when empty. -/
def take_port (st : St) : Option Nat × St :=
  match st.port_pool.getLast? with
  | none => (none, { st with portEvents := st.portEvents ++ [.takeFail] })
  | some p => (some p, { st with
      port_pool := st.port_pool.dropLast
      portEvents := st.portEvents ++ [.takeOk p] })

/-- port_pool.py return_port: append. -/
def return_port (p : Nat) (st : St) : St :=
  { st with
    port_pool := st.port_pool ++ [p]
    portEvents := st.portEvents ++ [.ret p] }

/-- utils.py make_request through the oracle: the n-th HTTP call of the
check receives the n-th outcome. -/
def make_request_m (env : Env) (b : BodySt) :
    Except PyExc (Option Response × ℚ × Option Bool) × BodySt :=
  let b' := { b with
    httpCount := b.httpCount + 1
    events := b.events ++ [.httpRequest] }
  match env.http b.httpCount with
  | .ok r e => (.ok (some r, e, none), b')
  | .exc c e => (.ok (none, e, some c), b')
  | .raised => (.error .other, b')

/-- A bare `active_processes.remove((proc, port))`: raises `ValueError`
when the pair is absent. -/
def remove_active_bare (pid port : Nat) (b : BodySt) : Except PyExc BodySt :=
  if (pid, port) ∈ b.active then .ok { b with active := b.active.erase (pid, port) }
  else .error .other

/-- A `remove` wrapped in `try/except ValueError: pass`. -/
def remove_active_safe (pid port : Nat) (b : BodySt) : BodySt :=
  { b with active := b.active.erase (pid, port) }

/-- checker.py cache store (lines 135-137 and 462-467). -/
def cache_write (env : Env) (vless_line : String) (result : Bool)
    (b : BodySt) : BodySt :=
  match b.cache with
  | some c =>
    if env.cfg.ENABLE_CACHE then
      { b with
        cache := some (cacheSet c (env.keyHash vless_line) ⟨some result, env.now⟩)
        events := b.events ++ [.cacheWrite] }
    else b
  | none => b

/-- config.py `_CLIENT_TEST_HTTPS`. -/
def _CLIENT_TEST_HTTPS : String := "https://www.gstatic.com/generate_204"

/-- checker.py lines 200-224: the strict-mode attempt loop. -/
def strong_loop (env : Env) (max_ok_time : ℚ) (attempts_needed : Nat)
    (pid port : Nat) : Nat → Metrics → BodySt →
      Except PyExc Bool × Metrics × BodySt
  | 0, metrics, b =>
    let metrics := { metrics with
      successful_requests := attempts_needed
      successful_urls := 1
      failed_urls := 0 }
    match remove_active_bare pid port b with
    | .ok b => (.ok true, metrics, b)
    | .error e => (.error e, metrics, b)
  | (r+1), metrics, b =>
    match make_request_m env b with
    | (.error e, b) => (.error e, metrics, b)
    | (.ok (response, elapsed_time, error), b) =>
      let metrics := { metrics with total_requests := metrics.total_requests + 1 }
      if respTruthy response && error.isNone
          && check_response_valid response 0 _CLIENT_TEST_HTTPS then
        if 0 < max_ok_time ∧ max_ok_time < elapsed_time then
          match remove_active_bare pid port b with
          | .ok b => (.ok false, metrics, b)
          | .error e => (.error e, metrics, b)
        else
          let metrics := { metrics with
            response_times := metrics.response_times ++ [elapsed_time] }
          strong_loop env max_ok_time attempts_needed pid port r metrics b
      else
        match remove_active_bare pid port b with
        | .ok b => (.ok false, metrics, b)
        | .error e => (.error e, metrics, b)

/-- checker.py lines 266-302: the retry loop of a single request. -/
def retry_loop (env : Env) (url : String) :
    Nat → Metrics → BodySt → Except PyExc Bool × Metrics × BodySt
  | 0, metrics, b => (.ok false, metrics, b)
  | (r+1), metrics, b =>
    match make_request_m env b with
    | (.error e, b) => (.error e, metrics, b)
    | (.ok (response, elapsed_time, error), b) =>
      let metrics := { metrics with total_requests := metrics.total_requests + 1 }
      if respTruthy response && error.isNone then
        if check_response_valid response env.cfg.MIN_RESPONSE_SIZE url then
          if 0 < env.cfg.MAX_RESPONSE_TIME ∧ env.cfg.MAX_RESPONSE_TIME < elapsed_time then
            retry_loop env url r metrics b
          else
            (.ok true, { metrics with
              response_times := metrics.response_times ++ [elapsed_time]
              successful_requests := metrics.successful_requests + 1 }, b)
        else
          retry_loop env url r metrics b
      else
        match error with
        | some isConn =>
          if isConn then retry_loop env url r metrics b
          else (.ok false, metrics, b)
        | none => retry_loop env url r metrics b

/-- checker.py lines 258-304; a successful request contributes `True`
twice to `request_results` (appended at line 283 inside the retry loop
and again at line 304 after it), a failed one contributes one `False`. -/
def request_loop (env : Env) (url : String) :
    Nat → List Bool → Metrics → BodySt →
      Except PyExc (List Bool) × Metrics × BodySt
  | 0, acc, metrics, b => (.ok acc, metrics, b)
  | (n+1), acc, metrics, b =>
    match retry_loop env url (env.cfg.MAX_RETRIES + 1).toNat metrics b with
    | (.error e, metrics, b) => (.error e, metrics, b)
    | (.ok req_ok, metrics, b) =>
      request_loop env url n
        (if req_ok then acc ++ [true, true] else acc ++ [false]) metrics b

inductive UrlKind | http | https
deriving DecidableEq, Repr

/-- A Python dict as an association list keeping first-insertion order. -/
def dictSetP {β : Type} (m : List (String × β)) (k : String) (v : β) :
    List (String × β) :=
  match m with
  | [] => [(k, v)]
  | (k', v') :: rest => if k' = k then (k, v) :: rest else (k', v') :: dictSetP rest k v

/-- Python `dict.get(k, d)`. -/
def dictGetPD {β : Type} (m : List (String × β)) (k : String) (d : β) : β :=
  match m with
  | [] => d
  | (k', v') :: rest => if k' = k then v' else dictGetPD rest k d

/-- Python `k in d` / `d[k]` as an option. -/
def dictFindP {β : Type} (m : List (String × β)) (k : String) : Option β :=
  match m with
  | [] => none
  | (k', v') :: rest => if k' = k then some v' else dictFindP rest k

abbrev UrlResults := List (String × Bool)

/-- checker.py lines 253-322: the per-round URL loop with the
short-circuit break. -/
def url_loop (env : Env) (all_urls : List (String × UrlKind)) :
    List (String × UrlKind) → UrlResults → Nat → Metrics → BodySt →
      Except PyExc (UrlResults × Nat) × Metrics × BodySt
  | [], url_results, cnt, metrics, b => (.ok (url_results, cnt), metrics, b)
  | (url, _k) :: rest, url_results, cnt, metrics, b =>
    match request_loop env url env.cfg.REQUESTS_PER_URL.toNat [] metrics b with
    | (.error e, metrics, b) => (.error e, metrics, b)
    | (.ok request_results, metrics, b) =>
      let successful_requests := (request_results.filter id).length
      let url_successful :=
        decide (env.cfg.MIN_SUCCESSFUL_REQUESTS ≤ (successful_requests : Int))
      let cnt := if url_successful then cnt + 1 else cnt
      let url_results := dictSetP url_results url url_successful
      if ¬ env.cfg.STRICT_MODE ∧ env.cfg.MIN_SUCCESSFUL_URLS ≤ (cnt : Int)
          ∧ (¬ env.cfg.REQUIRE_HTTPS
             ∨ ∃ u ∈ all_urls, u.2 = UrlKind.https
                 ∧ dictGetPD url_results u.1 false = true) then
        (.ok (url_results, cnt), metrics, b)
      else
        url_loop env all_urls rest url_results cnt metrics b

/-- checker.py lines 325-335: the optional POST probe. -/
def post_step (env : Env) (all_urls : List (String × UrlKind))
    (metrics : Metrics) (b : BodySt) : Except PyExc Unit × Metrics × BodySt :=
  if env.cfg.TEST_POST_REQUESTS then
    let post_url := (all_urls.headD (env.cfg.TEST_URL, UrlKind.http)).1
    match make_request_m env b with
    | (.error e, b) => (.error e, metrics, b)
    | (.ok (response, elapsed, error), b) =>
      let metrics := { metrics with total_requests := metrics.total_requests + 1 }
      if respTruthy response && error.isNone
          && check_response_valid response env.cfg.MIN_RESPONSE_SIZE post_url then
        (.ok (), { metrics with
          successful_requests := metrics.successful_requests + 1
          response_times := metrics.response_times ++ [elapsed] }, b)
      else (.ok (), metrics, b)
  else (.ok (), metrics, b)

/-- Did an early `return (key, alive, metrics)` fire inside the loop? -/
inductive Flow (α : Type) where
  | ret (alive : Bool)
  | cont (a : α)

/-- checker.py lines 338-346: the geolocation gate.  A `None` from the
service records nothing and gates nothing. -/
def geo_step (env : Env) (pid port : Nat) (metrics : Metrics) (b : BodySt) :
    Except PyExc (Flow Unit) × Metrics × BodySt :=
  if env.cfg.CHECK_GEOLOCATION then
    let g := env.geo b.geoCount
    let b := { b with geoCount := b.geoCount + 1 }
    match g with
    | some geo =>
      let metrics := { metrics with geolocation := some geo }
      if ¬ check_geolocation_allowed (some geo) env.cfg.ALLOWED_COUNTRIES then
        match remove_active_bare pid port b with
        | .ok b => (.ok (.ret false), metrics, b)
        | .error e => (.error e, metrics, b)
      else (.ok (.cont ()), metrics, b)
    | none => (.ok (.cont ()), metrics, b)
  else (.ok (.cont ()), metrics, b)

abbrev UrlHistory := List (String × List Bool)

/-- checker.py lines 245-381: the stability rounds. -/
def stability_loop (env : Env) (all_urls : List (String × UrlKind))
    (pid port : Nat) : Nat → UrlHistory → List Bool → Metrics → BodySt →
      Except PyExc (Flow (UrlHistory × List Bool)) × Metrics × BodySt
  | 0, all_url_results, stability_results, metrics, b =>
      (.ok (.cont (all_url_results, stability_results)), metrics, b)
  | (n+1), all_url_results, stability_results, metrics, b =>
    match url_loop env all_urls all_urls [] 0 metrics b with
    | (.error e, metrics, b) => (.error e, metrics, b)
    | (.ok (url_results, successful_urls_count), metrics, b) =>
      match post_step env all_urls metrics b with
      | (.error e, metrics, b) => (.error e, metrics, b)
      | (.ok _, metrics, b) =>
        match geo_step env pid port metrics b with
        | (.error e, metrics, b) => (.error e, metrics, b)
        | (.ok (.ret alive), metrics, b) => (.ok (.ret alive), metrics, b)
        | (.ok (.cont _), metrics, b) =>
          let all_url_results := url_results.foldl
            (fun acc uv => dictSetP acc uv.1 (dictGetPD acc uv.1 [] ++ [uv.2]))
            all_url_results
          let https_urls := (all_urls.filter (fun u => u.2 = UrlKind.https)).map Prod.fst
          let https_check_passed :=
            if env.cfg.REQUIRE_HTTPS ∧ https_urls ≠ [] then
              decide (0 < (https_urls.filter
                (fun u => dictGetPD url_results u false)).length)
            else true
          if env.cfg.STRICT_MODE ∧ env.cfg.STRICT_MODE_REQUIRE_ALL then
            let all_urls_passed := decide (successful_urls_count = all_urls.length)
            let stability_results :=
              stability_results ++ [all_urls_passed && https_check_passed]
            if all_urls_passed = false then
              match remove_active_bare pid port b with
              | .ok b => (.ok (.ret false), metrics, b)
              | .error e => (.error e, metrics, b)
            else if https_check_passed = false then
              match remove_active_bare pid port b with
              | .ok b => (.ok (.ret false), metrics, b)
              | .error e => (.error e, metrics, b)
            else
              stability_loop env all_urls pid port n all_url_results
                stability_results metrics b
          else
            stability_loop env all_urls pid port n all_url_results
              (stability_results ++
                [decide (env.cfg.MIN_SUCCESSFUL_URLS ≤ (successful_urls_count : Int))
                  && https_check_passed]) metrics b

/-- checker.py lines 384-470: the post-loop verdict computation, cache
write, registry removal and final return. -/
def final_eval (env : Env) (vless_line : String)
    (all_urls : List (String × UrlKind)) (pid port : Nat)
    (all_url_results : UrlHistory) (stability_results : List Bool)
    (metrics : Metrics) (b : BodySt) : Except PyExc Bool × Metrics × BodySt :=
  if 1 < env.cfg.STABILITY_CHECKS ∧ stability_results.all id = false then
    match remove_active_bare pid port b with
    | .ok b => (.ok false, metrics, b)
    | .error e => (.error e, metrics, b)
  else
    let rts := metrics.response_times
    let metrics := if rts ≠ [] then
        { metrics with avg_response_time := some (rts.sum / rts.length) }
      else metrics
    if rts ≠ [] ∧ 0 < env.cfg.MIN_AVG_RESPONSE_TIME
        ∧ env.cfg.MIN_AVG_RESPONSE_TIME < rts.sum / rts.length then
      match remove_active_bare pid port b with
      | .ok b => (.ok false, metrics, b)
      | .error e => (.error e, metrics, b)
    else
      let final_pair := all_urls.foldl (fun (acc : UrlResults × Nat) u =>
          match dictFindP all_url_results u.1 with
          | some lst =>
            let v := lst.getLast?.getD false
            (dictSetP acc.1 u.1 v, if v then acc.2 + 1 else acc.2)
          | none => acc) ([], 0)
      let final_url_results := final_pair.1
      let final_successful_count := final_pair.2
      let metrics := { metrics with
        successful_urls := final_successful_count
        failed_urls := all_urls.length - final_successful_count }
      let is_available :=
        decide (env.cfg.MIN_SUCCESSFUL_URLS ≤ (final_successful_count : Int))
      let https_urls := (all_urls.filter (fun u => u.2 = UrlKind.https)).map Prod.fst
      let is_available :=
        if env.cfg.REQUIRE_HTTPS then
          if https_urls ≠ [] then
            if (https_urls.filter
                (fun u => dictGetPD final_url_results u false)).length = 0
            then false else is_available
          else false
        else is_available
      let is_available :=
        if env.cfg.STRICT_MODE ∧ env.cfg.STRICT_MODE_REQUIRE_ALL then
          if env.cfg.REQUIRE_HTTPS then
            if https_urls ≠ [] then
              decide (final_successful_count = all_urls.length)
              && decide ((https_urls.filter
                  (fun u => dictGetPD final_url_results u false)).length
                = https_urls.length)
            else false
          else decide (final_successful_count = all_urls.length)
        else is_available
      let b := cache_write env vless_line is_available b
      match remove_active_bare pid port b with
      | .ok b => (.ok is_available, metrics, b)
      | .error e => (.error e, metrics, b)

/-- checker.py lines 166-470: the guarded body.  The result is the alive
flag of the `return` that fired (or the escaping exception), the metrics
at that moment, and the spawned process id, if one was created. -/
def try_body (env : Env) (vless_line : String) (port : Nat)
    (metrics : Metrics) (b : BodySt) :
    Except PyExc Bool × Metrics × Option Nat × BodySt :=
  match env.spawn with
  | .fileNotFound => (.error .fileNotFound, metrics, none, b)
  | .raised => (.error .other, metrics, none, b)
  | .ok exitsDuringWait =>
    let pid := b.nextProc
    let b := { b with
      nextProc := pid + 1
      active := b.active ++ [(pid, port)]
      events := b.events ++ [.spawned] }
    if exitsDuringWait then
      match remove_active_bare pid port b with
      | .ok b => (.ok false, metrics, some pid, b)
      | .error e => (.error e, metrics, some pid, b)
    else
      if env.cfg.STRONG_STYLE_TEST then
        let max_ok_time := if 0 < env.cfg.STRONG_MAX_RESPONSE_TIME
          then env.cfg.STRONG_MAX_RESPONSE_TIME else env.cfg.MAX_RESPONSE_TIME
        let attempts_needed := (max 1 env.cfg.STRONG_ATTEMPTS).toNat
        match strong_loop env max_ok_time attempts_needed pid port
            attempts_needed metrics b with
        | (.ok alive, metrics, b) => (.ok alive, metrics, some pid, b)
        | (.error e, metrics, b) => (.error e, metrics, some pid, b)
      else
        let all_urls : List (String × UrlKind) :=
          (env.cfg.TEST_URLS.map (fun u => (u, UrlKind.http)))
          ++ (env.cfg.TEST_URLS_HTTPS.map (fun u => (u, UrlKind.https)))
        let all_urls := if all_urls = [] then
            (if env.cfg.TEST_URL ≠ "" then [(env.cfg.TEST_URL, UrlKind.http)] else [])
          else all_urls
        if all_urls = [] then
          match remove_active_bare pid port b with
          | .ok b => (.ok false, metrics, some pid, b)
          | .error e => (.error e, metrics, some pid, b)
        else
          match stability_loop env all_urls pid port
              env.cfg.STABILITY_CHECKS.toNat [] [] metrics b with
          | (.error e, metrics, b) => (.error e, metrics, some pid, b)
          | (.ok (.ret alive), metrics, b) => (.ok alive, metrics, some pid, b)
          | (.ok (.cont (all_url_results, stability_results)), metrics, b) =>
            match final_eval env vless_line all_urls pid port all_url_results
                stability_results metrics b with
            | (.ok alive, metrics, b) => (.ok alive, metrics, some pid, b)
            | (.error e, metrics, b) => (.error e, metrics, some pid, b)

/-- checker.py _check_hysteria_reachable through the oracle: `some t` is
a TCP connect succeeding after `t` seconds, `none` a socket error (the
timeout is then reported as the latency). -/
def _check_hysteria_reachable (connectResult : Option ℚ) (timeout : ℚ) :
    Bool × ℚ :=
  match connectResult with
  | some elapsed => (true, elapsed)
  | none => (false, timeout)

/-- checker.py lines 498-516: the `finally` block — drop the process
from the registry ignoring absence, kill it, unlink the scratch file,
return the port. -/
def finally_cleanup (procOpt : Option Nat) (port : Nat) (st : St) : St :=
  match procOpt with
  | some pid =>
    let b := remove_active_safe pid port st.body
    let b := { b with events := b.events ++ [.killRelay] }
    return_port port { st with body := b }
  | none => return_port port st

/-- checker.py lines 112-164 plus the `try/except/finally` around the
body: everything after a cache miss. -/
def check_key_e2e_main (env : Env) (st : St) (vless_line : String) :
    (String × Bool × Metrics) × St :=
  let metrics := initMetrics
  let st := { st with body := { st.body with
    events := st.body.events ++ [.parseCall] } }
  match env.parse vless_line with
  | none => ((vless_line, false, metrics), st)
  | some parsed =>
    if parsed.protocol = .hysteria ∨ parsed.protocol = .hysteria2 then
      let timeout := if env.cfg.USE_ADAPTIVE_TIMEOUT then env.cfg.CONNECT_TIMEOUT_SLOW
        else env.cfg.CONNECT_TIMEOUT
      let okLat := _check_hysteria_reachable env.hysteriaConnect timeout
      let metrics := if okLat.1 then { metrics with response_times := [okLat.2] }
        else metrics
      let st := { st with body := cache_write env vless_line okLat.1 st.body }
      let metrics := { metrics with
        successful_urls := if okLat.1 then 1 else 0
        failed_urls := if okLat.1 then 0 else 1 }
      ((vless_line, okLat.1, metrics), st)
    else
      match take_port st with
      | (none, st) => ((vless_line, false, metrics), st)
      | (some port, st) =>
        if env.configWriteFails then
          ((vless_line, false, metrics), return_port port st)
        else
          match try_body env vless_line port metrics st.body with
          | (.ok alive, metrics, procOpt, b) =>
            ((vless_line, alive, metrics),
              finally_cleanup procOpt port { st with body := b })
          | (.error _e, metrics, procOpt, b) =>
            let b := match procOpt with
              | some pid => remove_active_safe pid port b
              | none => b
            ((vless_line, false, metrics),
              finally_cleanup procOpt port { st with body := b })

/-- checker.py check_key_e2e: the cache pre-flight, then the main path. -/
def check_key_e2e (env : Env) (st : St) (vless_line : String) :
    (String × Bool × Metrics) × St :=
  match st.body.cache with
  | some cache =>
    if env.cfg.ENABLE_CACHE then
      match check_cache env.cfg.ENABLE_CACHE env.cfg.CACHE_TTL env.now
          (env.keyHash vless_line) cache with
      | some cached_result => ((vless_line, cached_result, cachedMetrics), st)
      | none => check_key_e2e_main env st vless_line
    else check_key_e2e_main env st vless_line
  | none => check_key_e2e_main env st vless_line

/-- The cache pre-flight of check_key_e2e as a function: the verdict the
cache would serve, if any. -/
def cache_hit (env : Env) (st : St) (k : String) : Option Bool :=
  match st.body.cache with
  | some cache =>
    if env.cfg.ENABLE_CACHE then
      check_cache env.cfg.ENABLE_CACHE env.cfg.CACHE_TTL env.now (env.keyHash k) cache
    else none
  | none => none

lemma check_key_e2e_of_hit {env : Env} {st : St} {k : String} {v : Bool}
    (h : cache_hit env st k = some v) :
    check_key_e2e env st k = ((k, v, cachedMetrics), st) := by
  unfold cache_hit at h
  unfold check_key_e2e
  cases hc : st.body.cache with
  | none => rw [hc] at h; simp at h
  | some c =>
    rw [hc] at h
    by_cases he : env.cfg.ENABLE_CACHE = true
    · simp only [he, if_true] at h ⊢
      rw [h]
    · simp [he] at h

lemma check_key_e2e_of_miss {env : Env} {st : St} {k : String}
    (h : cache_hit env st k = none) :
    check_key_e2e env st k = check_key_e2e_main env st k := by
  unfold cache_hit at h
  unfold check_key_e2e
  cases hc : st.body.cache with
  | none => rfl
  | some c =>
    rw [hc] at h
    by_cases he : env.cfg.ENABLE_CACHE = true
    · simp only [he, if_true] at h ⊢
      rw [h]
    · simp [he]

/-- C3: with caching enabled and a fresh cache entry for the key's hash,
check_key_e2e returns the cached verdict with `cached = true` and has no
side effect at all: no parse, no port lease, no relay spawn, no log
event, and the cache and the port pool are returned unchanged (the whole
state is returned as it was). -/
theorem c3_cache_idempotence (env : Env) (st : St) (k : String)
    (cache : Cache) (v : Bool)
    (hc : st.body.cache = some cache)
    (hen : env.cfg.ENABLE_CACHE = true)
    (hhit : check_cache env.cfg.ENABLE_CACHE env.cfg.CACHE_TTL env.now
      (env.keyHash k) cache = some v) :
    check_key_e2e env st k = ((k, v, cachedMetrics), st)
    ∧ cachedMetrics.cached = true
    ∧ cachedMetrics.total_requests = 0 := by
  refine ⟨?_, rfl, rfl⟩
  apply check_key_e2e_of_hit
  unfold cache_hit
  rw [hc]
  rw [hen] at hhit
  simp only [hen, if_true]
  exact hhit

/-- The config.py defaults, used to build concrete witnesses. -/
def cfg0 : Config where
  ENABLE_CACHE := false
  CACHE_TTL := 3600
  USE_ADAPTIVE_TIMEOUT := false
  CONNECT_TIMEOUT := 8
  CONNECT_TIMEOUT_SLOW := 15
  STRONG_STYLE_TEST := false
  STRONG_MAX_RESPONSE_TIME := 3
  MAX_RESPONSE_TIME := 0
  STRONG_ATTEMPTS := 3
  TEST_URLS := ["http://www.google.com/generate_204"]
  TEST_URLS_HTTPS := []
  TEST_URL := "http://www.google.com/generate_204"
  STABILITY_CHECKS := 1
  REQUESTS_PER_URL := 1
  MAX_RETRIES := 1
  MIN_SUCCESSFUL_REQUESTS := 1
  MIN_SUCCESSFUL_URLS := 1
  STRICT_MODE := false
  STRICT_MODE_REQUIRE_ALL := true
  REQUIRE_HTTPS := false
  TEST_POST_REQUESTS := false
  CHECK_GEOLOCATION := false
  ALLOWED_COUNTRIES := []
  MIN_RESPONSE_SIZE := 0
  MIN_AVG_RESPONSE_TIME := 0
  BASE_PORT := 20000
  MAX_WORKERS := 2

/-- A neutral oracle for witnesses. -/
def env0 : Env where
  cfg := cfg0
  parse := fun _ => none
  keyHash := fun _ => "hash"
  now := 0
  hysteriaConnect := none
  configWriteFails := false
  spawn := .ok false
  http := fun _ => .raised
  geo := fun _ => none

/-- A fresh engine state for witnesses. -/
def st0 : St where
  port_pool := init_port_pool cfg0
  portEvents := []
  body := ⟨[], none, [], 0, 0, 0⟩

/-- C3 witness: a warm cache entry is served untouched. -/
theorem c3_cache_idempotence_witness :
    check_key_e2e { env0 with cfg := { cfg0 with ENABLE_CACHE := true } }
        { st0 with body := { st0.body with cache := some [("hash", ⟨some true, 0⟩)] } } "k"
      = (("k", true, cachedMetrics),
        { st0 with body := { st0.body with cache := some [("hash", ⟨some true, 0⟩)] } })
    ∧ cachedMetrics.cached = true
    ∧ cachedMetrics.total_requests = 0 :=
  c3_cache_idempotence { env0 with cfg := { cfg0 with ENABLE_CACHE := true } }
    { st0 with body := { st0.body with cache := some [("hash", ⟨some true, 0⟩)] } } "k"
    [("hash", ⟨some true, 0⟩)] true rfl rfl (by simp [check_cache, cacheGet, env0, cfg0])

/-- The pool is unchanged by a call and its take/return traffic is
matched: per port, as many successful takes as returns were appended. -/
def port_balanced (old new : St) : Prop :=
  new.port_pool = old.port_pool ∧
  ∀ p : Nat,
    ((new.portEvents.drop old.portEvents.length).filter
        (fun e => decide (e = PortEvent.takeOk p))).length
      = ((new.portEvents.drop old.portEvents.length).filter
        (fun e => decide (e = PortEvent.ret p))).length

lemma port_balanced_same {old new : St} (hp : new.port_pool = old.port_pool)
    (he : new.portEvents = old.portEvents) : port_balanced old new := by
  refine ⟨hp, ?_⟩
  intro p
  rw [he, List.drop_length]
  rfl

lemma port_balanced_takefail {old new : St}
    (hp : new.port_pool = old.port_pool)
    (he : new.portEvents = old.portEvents ++ [PortEvent.takeFail]) :
    port_balanced old new := by
  refine ⟨hp, ?_⟩
  intro p
  rw [he, List.drop_left]
  rfl

lemma port_balanced_pair {old new : St} (p : Nat)
    (hp : new.port_pool = old.port_pool)
    (he : new.portEvents = old.portEvents ++ [PortEvent.takeOk p, PortEvent.ret p]) :
    port_balanced old new := by
  refine ⟨hp, ?_⟩
  intro q
  rw [he, List.drop_left]
  by_cases h : q = p
  · subst h
    simp
  · simp [(by simpa using Ne.symm h : ¬ PortEvent.takeOk p = PortEvent.takeOk q),
      (by simpa using Ne.symm h : ¬ PortEvent.ret p = PortEvent.ret q)]

lemma finally_cleanup_pool (procOpt : Option Nat) (port : Nat) (st : St) :
    (finally_cleanup procOpt port st).port_pool = st.port_pool ++ [port]
    ∧ (finally_cleanup procOpt port st).portEvents
      = st.portEvents ++ [PortEvent.ret port] := by
  cases procOpt <;> simp [finally_cleanup, return_port]

/-- The port-pool bookkeeping of one whole check is balanced on every
exit path. -/
lemma port_balanced_check (env : Env) (st : St) (k : String) :
    port_balanced st (check_key_e2e env st k).2 := by
  cases hhit : cache_hit env st k with
  | some v =>
    rw [check_key_e2e_of_hit hhit]
    exact port_balanced_same rfl rfl
  | none =>
    rw [check_key_e2e_of_miss hhit]
    unfold check_key_e2e_main
    cases hp : env.parse k with
    | none => exact port_balanced_same rfl rfl
    | some parsed =>
      by_cases hh : parsed.protocol = .hysteria ∨ parsed.protocol = .hysteria2
      · simp only [hh, if_true]
        exact port_balanced_same rfl rfl
      · simp only [hh, if_false]
        unfold take_port
        cases hg : ({ st with body := { st.body with
            events := st.body.events ++ [BodyEvent.parseCall] } } : St).port_pool.getLast? with
        | none =>
          exact port_balanced_takefail rfl rfl
        | some port =>
          have hne : st.port_pool ≠ [] := by
            intro hnil
            rw [show ({ st with body := { st.body with
              events := st.body.events ++ [BodyEvent.parseCall] } } : St).port_pool
                = st.port_pool from rfl, hnil] at hg
            simp at hg
          have hmem : port ∈ st.port_pool.getLast? := hg ▸ rfl
          have hrestore : st.port_pool.dropLast ++ [port] = st.port_pool :=
            List.dropLast_append_getLast? _ hmem
          by_cases hcw : env.configWriteFails = true
          · simp only [hcw, if_true]
            exact port_balanced_pair port (by simp [return_port, hrestore])
              (by simp [return_port])
          · have hcw2 : env.configWriteFails = false := by simpa using hcw
            simp only [hcw2, Bool.false_eq_true, if_false]
            cases htb : try_body env k port initMetrics ({ st with body := { st.body with
                events := st.body.events ++ [BodyEvent.parseCall] } } : St).body with
            | mk res rest =>
              obtain ⟨metrics, procOpt, b⟩ := rest
              cases res with
              | ok alive =>
                refine port_balanced_pair port ?_ ?_
                · cases procOpt <;>
                    simp [finally_cleanup, return_port, remove_active_safe, hrestore]
                · cases procOpt <;>
                    simp [finally_cleanup, return_port, remove_active_safe]
              | error e =>
                refine port_balanced_pair port ?_ ?_
                · cases procOpt <;>
                    simp [finally_cleanup, return_port, remove_active_safe, hrestore]
                · cases procOpt <;>
                    simp [finally_cleanup, return_port, remove_active_safe]

/-- C7: the pool starts as the `MAX_WORKERS` consecutive ports from
`BASE_PORT`; `take_port` removes and returns an element, or `none` on an
empty pool; `return_port` appends; and on every exit path of
`check_key_e2e` each successful take is matched by exactly one return of
the same port, leaving the pool exactly as it was. -/
theorem c7_port_pool_discipline (cfg : Config) (stt : St) (p0 : Nat)
    (env : Env) (st : St) (k : String) :
    ((init_port_pool cfg).length = cfg.MAX_WORKERS
      ∧ (init_port_pool cfg).Nodup
      ∧ (p0 ∈ init_port_pool cfg ↔
          cfg.BASE_PORT ≤ p0 ∧ p0 < cfg.BASE_PORT + cfg.MAX_WORKERS))
    ∧ ((take_port stt).1 = stt.port_pool.getLast?
      ∧ ((take_port stt).1 = none ↔ stt.port_pool = [])
      ∧ (∀ p, (take_port stt).1 = some p →
          p ∈ stt.port_pool ∧ (take_port stt).2.port_pool ++ [p] = stt.port_pool))
    ∧ (return_port p0 stt).port_pool = stt.port_pool ++ [p0]
    ∧ port_balanced st (check_key_e2e env st k).2 := by
  refine ⟨⟨?_, ?_, ?_⟩, ⟨?_, ?_, ?_⟩, ?_, port_balanced_check env st k⟩
  · exact List.length_range' _ _ _
  · exact List.nodup_range' _ _
  · rw [init_port_pool, List.mem_range']
    constructor
    · rintro ⟨i, hi, rfl⟩
      omega
    · intro ⟨h1, h2⟩
      exact ⟨p0 - cfg.BASE_PORT, by omega, by omega⟩
  · unfold take_port
    cases hg : stt.port_pool.getLast? <;> simp
  · unfold take_port
    cases hg : stt.port_pool.getLast? with
    | none => simpa using List.getLast?_eq_none_iff.mp hg
    | some p =>
      simp
      intro hnil
      rw [hnil] at hg
      simp at hg
  · intro p hp
    unfold take_port at hp ⊢
    cases hg : stt.port_pool.getLast? with
    | none => rw [hg] at hp; simp at hp
    | some q =>
      rw [hg] at hp
      simp at hp
      subst hp
      refine ⟨mem_of_getLast?_eq hg, ?_⟩
      simp
      exact List.dropLast_append_getLast? _ (hg ▸ rfl)
  · simp [return_port]

/-- C7 witness: a fresh two-port pool, a failing-parse check. -/
theorem c7_port_pool_discipline_witness :
    ((init_port_pool cfg0).length = cfg0.MAX_WORKERS
      ∧ (init_port_pool cfg0).Nodup
      ∧ (20000 ∈ init_port_pool cfg0 ↔
          cfg0.BASE_PORT ≤ 20000 ∧ 20000 < cfg0.BASE_PORT + cfg0.MAX_WORKERS))
    ∧ ((take_port st0).1 = st0.port_pool.getLast?
      ∧ ((take_port st0).1 = none ↔ st0.port_pool = [])
      ∧ (∀ p, (take_port st0).1 = some p →
          p ∈ st0.port_pool ∧ (take_port st0).2.port_pool ++ [p] = st0.port_pool))
    ∧ (return_port 20000 st0).port_pool = st0.port_pool ++ [20000]
    ∧ port_balanced st0 (check_key_e2e env0 st0 "k").2 :=
  c7_port_pool_discipline cfg0 st0 20000 env0 st0 "k"

/-- Every call returns a triple keyed by the key that was checked. -/
lemma check_key_e2e_key (env : Env) (st : St) (k : String) :
    (check_key_e2e env st k).1.1 = k := by
  cases hhit : cache_hit env st k with
  | some v => rw [check_key_e2e_of_hit hhit]
  | none =>
    rw [check_key_e2e_of_miss hhit]
    unfold check_key_e2e_main
    cases hp : env.parse k with
    | none => rfl
    | some parsed =>
      by_cases hh : parsed.protocol = .hysteria ∨ parsed.protocol = .hysteria2
      · simp only [hh, if_true]
      · simp only [hh, if_false]
        unfold take_port
        cases hg : ({ st with body := { st.body with
            events := st.body.events ++ [BodyEvent.parseCall] } } : St).port_pool.getLast? with
        | none => rfl
        | some port =>
          by_cases hcw : env.configWriteFails = true
          · simp only [hcw, if_true]
          · have hcw2 : env.configWriteFails = false := by simpa using hcw
            simp only [hcw2, Bool.false_eq_true, if_false]
            cases htb : try_body env k port initMetrics ({ st with body := { st.body with
                events := st.body.events ++ [BodyEvent.parseCall] } } : St).body with
            | mk res rest =>
              obtain ⟨metrics, procOpt, b⟩ := rest
              cases res <;> rfl

/-- C8: errors never cross the worker boundary.  The call always
returns a `(key, alive, metrics)` triple; parse failure, port
exhaustion, a config-write error, a relay that exits during the
startup wait, and any exception raised inside the guarded body
(missing relay binary, an exception out of the HTTP stack) are all
converted to `alive = false`, with the metrics collected up to that
point. -/
theorem c8_errors_never_raised (env : Env) (st : St) (k : String) :
    ((check_key_e2e env st k).1.1 = k)
    ∧ (cache_hit env st k = none → env.parse k = none →
        (check_key_e2e env st k).1 = (k, false, initMetrics))
    ∧ (∀ parsed, cache_hit env st k = none → env.parse k = some parsed →
        parsed.protocol ≠ .hysteria → parsed.protocol ≠ .hysteria2 →
        st.port_pool = [] →
        (check_key_e2e env st k).1 = (k, false, initMetrics))
    ∧ (∀ parsed port, cache_hit env st k = none → env.parse k = some parsed →
        parsed.protocol ≠ .hysteria → parsed.protocol ≠ .hysteria2 →
        st.port_pool.getLast? = some port → env.configWriteFails = true →
        (check_key_e2e env st k).1 = (k, false, initMetrics))
    ∧ (∀ parsed port e m procOpt b, cache_hit env st k = none →
        env.parse k = some parsed →
        parsed.protocol ≠ .hysteria → parsed.protocol ≠ .hysteria2 →
        st.port_pool.getLast? = some port → env.configWriteFails = false →
        try_body env k port initMetrics { st.body with
            events := st.body.events ++ [BodyEvent.parseCall] }
          = (.error e, m, procOpt, b) →
        (check_key_e2e env st k).1 = (k, false, m))
    ∧ (∀ parsed port, cache_hit env st k = none →
        env.parse k = some parsed →
        parsed.protocol ≠ .hysteria → parsed.protocol ≠ .hysteria2 →
        st.port_pool.getLast? = some port → env.configWriteFails = false →
        env.spawn = .ok true →
        (check_key_e2e env st k).1 = (k, false, initMetrics)) := by
  refine ⟨check_key_e2e_key env st k, ?_, ?_, ?_, ?_, ?_⟩
  · intro hmiss hp
    rw [check_key_e2e_of_miss hmiss]
    unfold check_key_e2e_main
    rw [hp]
  · intro parsed hmiss hp h1 h2 hpool
    rw [check_key_e2e_of_miss hmiss]
    unfold check_key_e2e_main
    rw [hp]
    have hh : ¬ (parsed.protocol = .hysteria ∨ parsed.protocol = .hysteria2) := by
      simp [h1, h2]
    simp only [hh, if_false]
    unfold take_port
    have hg : ({ st with body := { st.body with
        events := st.body.events ++ [BodyEvent.parseCall] } } : St).port_pool.getLast?
        = none := by
      simp only []
      rw [List.getLast?_eq_none_iff]
      exact hpool
    rw [hg]
  · intro parsed port hmiss hp h1 h2 hpool hcw
    rw [check_key_e2e_of_miss hmiss]
    unfold check_key_e2e_main
    rw [hp]
    have hh : ¬ (parsed.protocol = .hysteria ∨ parsed.protocol = .hysteria2) := by
      simp [h1, h2]
    simp only [hh, if_false]
    unfold take_port
    rw [show ({ st with body := { st.body with
        events := st.body.events ++ [BodyEvent.parseCall] } } : St).port_pool.getLast?
        = some port from hpool]
    simp only [hcw, if_true]
  · intro parsed port e m procOpt b hmiss hp h1 h2 hpool hcw htb
    rw [check_key_e2e_of_miss hmiss]
    unfold check_key_e2e_main
    rw [hp]
    have hh : ¬ (parsed.protocol = .hysteria ∨ parsed.protocol = .hysteria2) := by
      simp [h1, h2]
    simp only [hh, if_false]
    unfold take_port
    rw [show ({ st with body := { st.body with
        events := st.body.events ++ [BodyEvent.parseCall] } } : St).port_pool.getLast?
        = some port from hpool]
    simp only [hcw, Bool.false_eq_true, if_false]
    rw [htb]
  · intro parsed port hmiss hp h1 h2 hpool hcw hspawn
    rw [check_key_e2e_of_miss hmiss]
    unfold check_key_e2e_main
    rw [hp]
    have hh : ¬ (parsed.protocol = .hysteria ∨ parsed.protocol = .hysteria2) := by
      simp [h1, h2]
    simp only [hh, if_false]
    unfold take_port
    rw [show ({ st with body := { st.body with
        events := st.body.events ++ [BodyEvent.parseCall] } } : St).port_pool.getLast?
        = some port from hpool]
    simp only [hcw, Bool.false_eq_true, if_false]
    unfold try_body
    rw [hspawn]
    simp [remove_active_bare]

/-- C8 witness: a missing relay binary (`FileNotFoundError` out of
`run_xray`) and a relay that exits during the startup wait are both
converted to a dead verdict. -/
theorem c8_errors_never_raised_witness :
    (check_key_e2e { env0 with
        parse := fun _ => some ⟨.vless, "h", 443⟩, spawn := .fileNotFound }
      st0 "k").1 = ("k", false, initMetrics)
    ∧ (check_key_e2e { env0 with
        parse := fun _ => some ⟨.vless, "h", 443⟩, spawn := .ok true }
      st0 "k").1 = ("k", false, initMetrics) :=
  ⟨(c8_errors_never_raised { env0 with
      parse := fun _ => some ⟨.vless, "h", 443⟩, spawn := .fileNotFound }
    st0 "k").2.2.2.2.1 ⟨.vless, "h", 443⟩ 20001 .fileNotFound initMetrics none
    ⟨[], none, [BodyEvent.parseCall], 0, 0, 0⟩
    rfl rfl (by decide) (by decide) rfl rfl rfl,
  (c8_errors_never_raised { env0 with
      parse := fun _ => some ⟨.vless, "h", 443⟩, spawn := .ok true }
    st0 "k").2.2.2.2.2 ⟨.vless, "h", 443⟩ 20001
    rfl rfl (by decide) (by decide) rfl rfl rfl⟩

/-- The response-time bound the strict mode enforces:
`STRONG_MAX_RESPONSE_TIME` when positive, else `MAX_RESPONSE_TIME`
(checker.py line 193). -/
def strong_effective_limit (cfg : Config) : ℚ :=
  if 0 < cfg.STRONG_MAX_RESPONSE_TIME then cfg.STRONG_MAX_RESPONSE_TIME
  else cfg.MAX_RESPONSE_TIME

/-- `max(1, STRONG_ATTEMPTS)` (checker.py line 198). -/
def strong_attempt_count (cfg : Config) : Nat := (max 1 cfg.STRONG_ATTEMPTS).toNat

/-- Whether one strict-mode attempt passes, given the effective
response-time limit: a truthy, valid response within the limit. -/
def strong_attempt_pass (lim : ℚ) (o : HttpOutcome) : Bool :=
  match o with
  | .ok r e => respTruthy (some r) && check_response_valid (some r) 0 _CLIENT_TEST_HTTPS
      && decide (¬ (0 < lim ∧ lim < e))
  | .exc _ _ => false
  | .raised => false

/-- The rule exactly as the specification words it: the only time bound
is `STRONG_MAX_RESPONSE_TIME`, applied when that value is positive. -/
def claimed_strong_pass (cfg : Config) (o : HttpOutcome) : Bool :=
  match o with
  | .ok r e => respTruthy (some r) && check_response_valid (some r) 0 _CLIENT_TEST_HTTPS
      && decide (¬ (0 < cfg.STRONG_MAX_RESPONSE_TIME ∧ cfg.STRONG_MAX_RESPONSE_TIME < e))
  | .exc _ _ => false
  | .raised => false

lemma strong_loop_all_pass (env : Env) (lim : ℚ) (attempts pid port : Nat) :
    ∀ (rem : Nat) (metrics : Metrics) (b : BodySt),
      (pid, port) ∈ b.active →
      (∀ j < rem, strong_attempt_pass lim (env.http (b.httpCount + j)) = true) →
      ∃ m b', strong_loop env lim attempts pid port rem metrics b = (.ok true, m, b')
        ∧ m.total_requests = metrics.total_requests + rem
        ∧ m.successful_requests = attempts := by
  intro rem
  induction rem with
  | zero =>
    intro metrics b hmem _
    refine ⟨{ metrics with
        successful_requests := attempts
        successful_urls := 1
        failed_urls := 0 },
      { b with active := b.active.erase (pid, port) }, ?_, by simp, rfl⟩
    simp [strong_loop, remove_active_bare, hmem]
  | succ r ih =>
    intro metrics b hmem hpass
    have h0 := hpass 0 (by omega)
    rw [Nat.add_zero] at h0
    cases ho : env.http b.httpCount with
    | raised => rw [ho] at h0; simp [strong_attempt_pass] at h0
    | exc c e => rw [ho] at h0; simp [strong_attempt_pass] at h0
    | ok resp e =>
      rw [ho] at h0
      simp only [strong_attempt_pass, Bool.and_eq_true, decide_eq_true_eq] at h0
      obtain ⟨⟨htru, hval⟩, htime⟩ := h0
      simp only [strong_loop, make_request_m]
      rw [ho]
      simp only [htru, hval, Option.isNone_none, Bool.and_true, Bool.true_and, if_true,
        if_neg htime]
      obtain ⟨m, b', heq, htot, hsucc⟩ := ih
        { metrics with
          total_requests := metrics.total_requests + 1
          response_times := metrics.response_times ++ [e] }
        { b with
          httpCount := b.httpCount + 1
          events := b.events ++ [BodyEvent.httpRequest] }
        hmem
        (by
          intro j hj
          have := hpass (j + 1) (by omega)
          simpa [Nat.add_assoc, Nat.add_comm, Nat.add_left_comm] using this)
      refine ⟨m, b', heq, by simp at htot; omega, hsucc⟩

lemma strong_loop_first_fail (env : Env) (lim : ℚ) (attempts pid port : Nat) :
    ∀ (rem j0 : Nat) (metrics : Metrics) (b : BodySt),
      (pid, port) ∈ b.active →
      j0 < rem →
      (∀ i < j0, strong_attempt_pass lim (env.http (b.httpCount + i)) = true) →
      strong_attempt_pass lim (env.http (b.httpCount + j0)) = false →
      (∀ i ≤ j0, env.http (b.httpCount + i) ≠ .raised) →
      ∃ m b', strong_loop env lim attempts pid port rem metrics b = (.ok false, m, b')
        ∧ m.total_requests = metrics.total_requests + j0 + 1 := by
  intro rem
  induction rem with
  | zero => intro j0 metrics b _ hj; omega
  | succ r ih =>
    intro j0 metrics b hmem hj hpass hfail hnr
    cases j0 with
    | zero =>
      have hn0 := hnr 0 (by omega)
      rw [Nat.add_zero] at hfail hn0
      cases ho : env.http b.httpCount with
      | raised => exact absurd ho hn0
      | exc c e =>
        rw [ho] at hfail
        simp only [strong_loop, make_request_m]
        rw [ho]
        refine ⟨{ metrics with total_requests := metrics.total_requests + 1 },
          ⟨b.active.erase (pid, port), b.cache, b.events ++ [BodyEvent.httpRequest],
            b.nextProc, b.httpCount + 1, b.geoCount⟩, ?_, by simp⟩
        simp [remove_active_bare, hmem]
      | ok resp e =>
        rw [ho] at hfail
        simp only [strong_loop, make_request_m]
        rw [ho]
        by_cases hv : (respTruthy (some resp)
            && check_response_valid (some resp) 0 _CLIENT_TEST_HTTPS) = true
        · have htime : 0 < lim ∧ lim < e := by
            by_contra hc
            rw [show strong_attempt_pass lim (HttpOutcome.ok resp e)
              = (respTruthy (some resp)
                && check_response_valid (some resp) 0 _CLIENT_TEST_HTTPS
                && decide (¬ (0 < lim ∧ lim < e))) from rfl] at hfail
            rw [hv] at hfail
            simp [hc] at hfail
          simp only [Bool.and_eq_true] at hv
          simp only [hv.1, hv.2, Option.isNone_none, Bool.and_true, Bool.true_and,
            if_true, if_pos htime]
          refine ⟨{ metrics with total_requests := metrics.total_requests + 1 },
            ⟨b.active.erase (pid, port), b.cache, b.events ++ [BodyEvent.httpRequest],
              b.nextProc, b.httpCount + 1, b.geoCount⟩, ?_, by simp⟩
          simp [remove_active_bare, hmem]
        · have hcond : (respTruthy (some resp) && Option.isNone (none : Option Bool)
              && check_response_valid (some resp) 0 _CLIENT_TEST_HTTPS) = false := by
            simp only [Option.isNone_none, Bool.and_true]
            simpa using hv
          simp only [hcond, Bool.false_eq_true, if_false]
          refine ⟨{ metrics with total_requests := metrics.total_requests + 1 },
            ⟨b.active.erase (pid, port), b.cache, b.events ++ [BodyEvent.httpRequest],
              b.nextProc, b.httpCount + 1, b.geoCount⟩, ?_, by simp⟩
          simp [remove_active_bare, hmem]
    | succ i0 =>
      have h0 := hpass 0 (by omega)
      rw [Nat.add_zero] at h0
      cases ho : env.http b.httpCount with
      | raised => rw [ho] at h0; simp [strong_attempt_pass] at h0
      | exc c e => rw [ho] at h0; simp [strong_attempt_pass] at h0
      | ok resp e =>
        rw [ho] at h0
        simp only [strong_attempt_pass, Bool.and_eq_true, decide_eq_true_eq] at h0
        obtain ⟨⟨htru, hval⟩, htime⟩ := h0
        simp only [strong_loop, make_request_m]
        rw [ho]
        simp only [htru, hval, Option.isNone_none, Bool.and_true, Bool.true_and,
          if_true, if_neg htime]
        obtain ⟨m, b', heq, htot⟩ := ih i0
          { metrics with
            total_requests := metrics.total_requests + 1
            response_times := metrics.response_times ++ [e] }
          { b with
            httpCount := b.httpCount + 1
            events := b.events ++ [BodyEvent.httpRequest] }
          hmem (by omega)
          (by
            intro i hi
            have := hpass (i + 1) (by omega)
            simpa [Nat.add_assoc, Nat.add_comm, Nat.add_left_comm] using this)
          (by
            have := hfail
            simpa [Nat.add_assoc, Nat.add_comm, Nat.add_left_comm] using this)
          (by
            intro i hi
            have := hnr (i + 1) (by omega)
            simpa [Nat.add_assoc, Nat.add_comm, Nat.add_left_comm] using this)
        refine ⟨m, b', heq, by simp at htot; omega⟩

/-- The body state at the entry of the strict-mode loop: the parse logged
and the freshly spawned relay registered on `port`
(checker.py lines 122, 176-183). -/
def strong_body (st : St) (port : Nat) : BodySt :=
  { active := st.body.active ++ [(st.body.nextProc, port)]
    cache := st.body.cache
    events := (st.body.events ++ [BodyEvent.parseCall]) ++ [BodyEvent.spawned]
    nextProc := st.body.nextProc + 1
    httpCount := st.body.httpCount
    geoCount := st.body.geoCount }

lemma check_key_e2e_strong {env : Env} {st : St} {k : String} {parsed : Parsed}
    {port : Nat}
    (hmiss : cache_hit env st k = none)
    (hparse : env.parse k = some parsed)
    (hh : ¬ (parsed.protocol = .hysteria ∨ parsed.protocol = .hysteria2))
    (hpool : st.port_pool.getLast? = some port)
    (hcw : env.configWriteFails = false)
    (hspawn : env.spawn = .ok false)
    (hstrong : env.cfg.STRONG_STYLE_TEST = true)
    {alive : Bool} {m : Metrics} {b2 : BodySt}
    (hloop : strong_loop env (strong_effective_limit env.cfg)
        (strong_attempt_count env.cfg) st.body.nextProc port
        (strong_attempt_count env.cfg) initMetrics (strong_body st port)
        = (.ok alive, m, b2)) :
    (check_key_e2e env st k).1 = (k, alive, m) := by
  rw [check_key_e2e_of_miss hmiss]
  unfold check_key_e2e_main
  rw [hparse]
  simp only [if_neg hh]
  unfold take_port
  have hpool2 : ({ st with body := { st.body with
      events := st.body.events ++ [BodyEvent.parseCall] } } : St).port_pool.getLast?
      = some port := hpool
  rw [hpool2]
  simp only [hcw, Bool.false_eq_true, if_false]
  unfold try_body
  rw [hspawn]
  simp only [hstrong, if_true, Bool.false_eq_true, if_false]
  have hloop2 : strong_loop env
      (if 0 < env.cfg.STRONG_MAX_RESPONSE_TIME then env.cfg.STRONG_MAX_RESPONSE_TIME
        else env.cfg.MAX_RESPONSE_TIME)
      (max 1 env.cfg.STRONG_ATTEMPTS).toNat st.body.nextProc port
      (max 1 env.cfg.STRONG_ATTEMPTS).toNat initMetrics
      { active := st.body.active ++ [(st.body.nextProc, port)]
        cache := st.body.cache
        events := st.body.events ++ [BodyEvent.parseCall] ++ [BodyEvent.spawned]
        nextProc := st.body.nextProc + 1
        httpCount := st.body.httpCount
        geoCount := st.body.geoCount }
      = (Except.ok alive, m, b2) := hloop
  rw [hloop2]

/-- Strict mode with `STRONG_MAX_RESPONSE_TIME = 0`: the claim says no
time bound applies, the code falls back to `MAX_RESPONSE_TIME`. -/
def cfgC4 : Config :=
  { cfg0 with
    STRONG_STYLE_TEST := true
    STRONG_MAX_RESPONSE_TIME := 0
    MAX_RESPONSE_TIME := 1
    STRONG_ATTEMPTS := 1 }

/-- An oracle whose single strict-mode attempt answers 204 after 2 s. -/
def envC4 : Env :=
  { env0 with
    cfg := cfgC4
    parse := fun _ => some ⟨.vless, "h", 443⟩
    http := fun _ => .ok ⟨204, []⟩ 2 }

/-- C4 counterexample: with `STRONG_MAX_RESPONSE_TIME = 0` the spec's
rule ("elapsed exceeding STRONG_MAX_RESPONSE_TIME when that limit is
positive") accepts a 2-second 204, but checker.py line 193 falls back to
`MAX_RESPONSE_TIME = 1` and the whole check returns dead. -/
theorem c4_counterexample :
    claimed_strong_pass cfgC4 (.ok ⟨204, []⟩ 2) = true
    ∧ strong_attempt_pass (strong_effective_limit cfgC4) (.ok ⟨204, []⟩ 2) = false
    ∧ (check_key_e2e envC4 st0 "k").1.2.1 = false := by
  decide

/-- C4 (amended): in strict mode the effective response-time bound is
`STRONG_MAX_RESPONSE_TIME` when positive and `MAX_RESPONSE_TIME`
otherwise.  Given a cache miss, a parsed non-hysteria key, a leased
port, a healthy config write and relay spawn: if the first
`max(1, STRONG_ATTEMPTS)` outcomes have a first failure at index `j0`,
the check returns dead with `total_requests = j0 + 1`; if they all
pass, it returns live with
`total_requests = successful_requests = max(1, STRONG_ATTEMPTS)`. -/
theorem c4_strict_mode (env : Env) (st : St) (k : String) (parsed : Parsed)
    (port : Nat)
    (hmiss : cache_hit env st k = none)
    (hparse : env.parse k = some parsed)
    (hh : ¬ (parsed.protocol = .hysteria ∨ parsed.protocol = .hysteria2))
    (hpool : st.port_pool.getLast? = some port)
    (hcw : env.configWriteFails = false)
    (hspawn : env.spawn = .ok false)
    (hstrong : env.cfg.STRONG_STYLE_TEST = true) :
    (∀ j0 < strong_attempt_count env.cfg,
      (∀ i < j0, strong_attempt_pass (strong_effective_limit env.cfg)
        (env.http (st.body.httpCount + i)) = true) →
      strong_attempt_pass (strong_effective_limit env.cfg)
        (env.http (st.body.httpCount + j0)) = false →
      (∀ i ≤ j0, env.http (st.body.httpCount + i) ≠ .raised) →
      ∃ m, (check_key_e2e env st k).1 = (k, false, m)
        ∧ m.total_requests = j0 + 1)
    ∧ ((∀ j < strong_attempt_count env.cfg,
        strong_attempt_pass (strong_effective_limit env.cfg)
          (env.http (st.body.httpCount + j)) = true) →
      ∃ m, (check_key_e2e env st k).1 = (k, true, m)
        ∧ m.total_requests = strong_attempt_count env.cfg
        ∧ m.successful_requests = strong_attempt_count env.cfg) := by
  constructor
  · intro j0 hj hpass hfail hnr
    obtain ⟨m, b2, hloop, htot⟩ := strong_loop_first_fail env
      (strong_effective_limit env.cfg) (strong_attempt_count env.cfg)
      st.body.nextProc port (strong_attempt_count env.cfg) j0 initMetrics
      (strong_body st port)
      (by simp [strong_body])
      hj hpass hfail hnr
    exact ⟨m, check_key_e2e_strong hmiss hparse hh hpool hcw hspawn hstrong hloop,
      by simpa [initMetrics] using htot⟩
  · intro hall
    obtain ⟨m, b2, hloop, htot, hsucc⟩ := strong_loop_all_pass env
      (strong_effective_limit env.cfg) (strong_attempt_count env.cfg)
      st.body.nextProc port (strong_attempt_count env.cfg) initMetrics
      (strong_body st port)
      (by simp [strong_body])
      hall
    exact ⟨m, check_key_e2e_strong hmiss hparse hh hpool hcw hspawn hstrong hloop,
      by simpa [initMetrics] using htot, hsucc⟩

/-- Strict mode with three attempts, for the C4 witness. -/
def cfgC4w : Config :=
  { cfg0 with STRONG_STYLE_TEST := true }

/-- An oracle whose first attempt passes in 1 s and whose second raises
a connection error: the spec example of a failure on attempt two. -/
def envC4w : Env :=
  { env0 with
    cfg := cfgC4w
    parse := fun _ => some ⟨.vless, "h", 443⟩
    http := fun j => if j = 0 then .ok ⟨204, []⟩ 1 else .exc true 1 }

/-- C4 witness: three attempts, the second fails, the key is dead with
exactly two requests counted. -/
theorem c4_strict_mode_witness :
    ∃ m, (check_key_e2e envC4w st0 "k").1 = ("k", false, m)
      ∧ m.total_requests = 1 + 1 :=
  (c4_strict_mode envC4w st0 "k" ⟨.vless, "h", 443⟩ 20001 rfl rfl (by decide)
    (by decide) rfl rfl rfl).1 1 (by decide) (by decide) (by decide) (by decide)

/-- Python `round(x, 2)`: scale by 100, round half to even, scale back
(the float-level representation error is not modelled). -/
def roundPy2 (x : ℚ) : ℚ :=
  let y := x * 100
  let f : ℤ := ⌊y⌋
  let frac := y - f
  let r : ℤ :=
    if frac < 1/2 then f
    else if 1/2 < frac then f + 1
    else if f % 2 = 0 then f else f + 1
  (r : ℚ) / 100

/-- What the download-speed oracle saw: the HTTP status, the chunk
sizes actually read before the loop stopped, the final elapsed time,
and whether a `RequestException` escaped. -/
structure DlOutcome where
  status : Nat
  chunks : List Nat
  elapsed : ℚ
  raises : Bool
deriving DecidableEq, Repr

/-- speedtest.py lines 64-99: `None` on exception, non-200 status or a
sub-300 ms run, else the Mbps rounded to two decimals. -/
def _test_download_speed (o : DlOutcome) : Option ℚ :=
  if o.raises then none
  else if o.status ≠ 200 then none
  else if o.elapsed < 3/10 then none
  else some (roundPy2 ((o.chunks.sum * 8 : ℚ) / (o.elapsed * 1000000)))

/-- The throughput formula exactly as the specification words it:
`downloaded_bytes * 8 / (elapsed_seconds * 1e6)`, no rounding. -/
def claimed_download_speed (o : DlOutcome) : Option ℚ :=
  if o.raises then none
  else if o.status ≠ 200 then none
  else if o.elapsed < 3/10 then none
  else some ((o.chunks.sum * 8 : ℚ) / (o.elapsed * 1000000))

/-- The valid-response latency samples collected by the speed-test
latency loop (speedtest.py lines 183-194): `elapsed * 1000` for every
outcome that is truthy, error-free and passes validation. -/
def latency_samples (outs : List (Option Response × ℚ × Option Bool))
    (url : String) : List ℚ :=
  outs.filterMap (fun o =>
    if respTruthy o.1 && o.2.2.isNone && check_response_valid o.1 0 url
    then some (o.2.1 * 1000) else none)

/-- The external world of one speed_test_key call. -/
structure SpeedEnv where
  parse : Option Parsed
  hysteriaLatency : Option ℚ
  portAvail : Option Nat
  configWriteFails : Bool
  raisesBody : Bool
  procExitsEarly : Bool
  portWaitOk : Bool
  latencyOutcomes : List (Option Response × ℚ × Option Bool)
  dl : DlOutcome

/-- speedtest.py lines 102-238: parse, hysteria shortcut, port lease,
config write, spawn and startup wait, the latency loop, then the
mode-dependent verdict. -/
def speed_test_key (env : SpeedEnv) (proxy_line : String)
    (mode metric download_url_small download_url_medium test_url : String) :
    Option (String × ℚ) :=
  match env.parse with
  | none => none
  | some parsed =>
    if parsed.protocol = .hysteria ∨ parsed.protocol = .hysteria2 then
      match env.hysteriaLatency with
      | some l => some (proxy_line, l)
      | none => none
    else
      match env.portAvail with
      | none => none
      | some _port =>
        if env.configWriteFails then none
        else if env.raisesBody then none
        else if env.procExitsEarly then none
        else if ¬ env.portWaitOk then none
        else
          let response_times := latency_samples env.latencyOutcomes test_url
          if response_times = [] then none
          else
            let avg := response_times.sum / response_times.length
            if mode = "quick" ∧ download_url_small ≠ "" then
              match _test_download_speed env.dl with
              | some sp => some (proxy_line, sp)
              | none => none
            else if mode = "full" ∧ download_url_medium ≠ "" then
              match _test_download_speed env.dl with
              | some sp => some (proxy_line, sp)
              | none => none
            else if mode = "latency"
                ∨ ¬ (download_url_small ≠ "" ∨ download_url_medium ≠ "") then
              if metric = "throughput" then
                some (proxy_line, if 0 < avg then 100000 / avg else 0)
              else some (proxy_line, avg)
            else some (proxy_line, avg)

/-- C9 counterexample: one byte downloaded in one second.  The spec's
formula yields `8e-6` Mbps, but speedtest.py line 97 rounds to two
decimals and reports `0.0`. -/
theorem c9_counterexample :
    claimed_download_speed ⟨200, [1], 1, false⟩ = some (8 / 1000000)
    ∧ _test_download_speed ⟨200, [1], 1, false⟩ = some 0
    ∧ ((8 : ℚ) / 1000000) ≠ 0 := by
  refine ⟨?_, ?_, by norm_num⟩
  · simp only [claimed_download_speed]
    norm_num
  · simp only [_test_download_speed, roundPy2]
    norm_num

/-- C9 (amended): the reported Mbps is
`round(downloaded_bytes * 8 / (elapsed_seconds * 1e6), 2)` — the spec's
formula holds only up to the two-decimal rounding; an elapsed time
below 300 ms always yields no sample; and a latency phase with zero
validated requests makes speed_test_key return nothing. -/
theorem c9_speedtest :
    (∀ o : DlOutcome, o.raises = false → o.status = 200 →
      ¬ (o.elapsed < 3/10) →
      _test_download_speed o
        = some (roundPy2 ((o.chunks.sum * 8 : ℚ) / (o.elapsed * 1000000))))
    ∧ (∀ o : DlOutcome, o.elapsed < 3/10 → _test_download_speed o = none)
    ∧ (∀ (env : SpeedEnv) (k mode metric u1 u2 turl : String)
        (parsed : Parsed),
      env.parse = some parsed →
      ¬ (parsed.protocol = .hysteria ∨ parsed.protocol = .hysteria2) →
      latency_samples env.latencyOutcomes turl = [] →
      speed_test_key env k mode metric u1 u2 turl = none) := by
  refine ⟨?_, ?_, ?_⟩
  · intro o hr hs he
    simp [_test_download_speed, hr, hs, he]
  · intro o he
    unfold _test_download_speed
    by_cases hr : o.raises = true
    · simp [hr]
    · by_cases hs : o.status = 200
      · simp [hr, hs, he]
      · simp [hr, hs]
  · intro env k mode metric u1 u2 turl parsed hparse hh hempty
    unfold speed_test_key
    rw [hparse]
    simp only [if_neg hh]
    cases hp : env.portAvail with
    | none => rfl
    | some p =>
      simp only [hempty]
      by_cases h1 : env.configWriteFails = true
      · simp [h1]
      · by_cases h2 : env.raisesBody = true
        · simp [h1, h2]
        · by_cases h3 : env.procExitsEarly = true
          · simp [h1, h2, h3]
          · by_cases h4 : env.portWaitOk = true
            · simp [h1, h2, h3, h4]
            · simp [h1, h2, h3, h4]

/-- The speed-test oracle for the C9 witness: everything healthy but
the single latency probe gets no response. -/
def envC9 : SpeedEnv where
  parse := some ⟨.vless, "h", 443⟩
  hysteriaLatency := none
  portAvail := some 20000
  configWriteFails := false
  raisesBody := false
  procExitsEarly := false
  portWaitOk := true
  latencyOutcomes := [(none, 1, some false)]
  dl := ⟨200, [], 1, false⟩

/-- C9 witness: a 375000-byte download over 3 s reports its rounded
Mbps, a 100 ms download is discarded, and a latency phase with no
validated response omits the key. -/
theorem c9_speedtest_witness :
    _test_download_speed ⟨200, [375000], 3, false⟩
      = some (roundPy2 ((([375000] : List Nat).sum * 8 : ℚ) / (3 * 1000000)))
    ∧ _test_download_speed ⟨200, [999], 1/10, false⟩ = none
    ∧ speed_test_key envC9 "k" "latency" "latency" "" "" _CLIENT_TEST_HTTPS
      = none :=
  ⟨c9_speedtest.1 ⟨200, [375000], 3, false⟩ rfl rfl (by norm_num),
   c9_speedtest.2.1 ⟨200, [999], 1/10, false⟩ (by norm_num),
   c9_speedtest.2.2 envC9 "k" "latency" "latency" "" "" _CLIENT_TEST_HTTPS
     ⟨.vless, "h", 443⟩ rfl (by decide) rfl⟩

/-- parsing.py `_MAX_CASCADE_DEPTH = 3`. -/
def _MAX_CASCADE_DEPTH : Nat := 3

/-- The external world of the feed traversal: source-identifier
normalization, URL detection, file-parent resolution, and the fetched
content of a source — its child-source tokens (already resolved and
deduplicated, parsing.py lines 721-738) and its `(link, full)` keys —
or the exception the fetch raised. -/
structure FeedEnv where
  normSrc : String → String → String
  isUrl : String → Bool
  resolveParent : String → String
  srcData : String → String → Except Unit (List String × List (String × String))

/-- parsing.py lines 771-775: a URL child keeps the parent base
directory, a file child uses its own parent directory. -/
def child_base (env : FeedEnv) (child base : String) : String :=
  if env.isUrl child then base else env.resolveParent child

/-- parsing.py collect_sources (lines 681-740) with the I/O behind the
oracle: the cycle guard, the depth guard, the visited update, then the
fetch (children and keys, or the raised error). -/
def collect_sources (env : FeedEnv) (source base : String) (depth : Nat)
    (visited : List String) :
    Except Unit (List String × List (String × String)) × List String :=
  let normalized := env.normSrc source base
  if normalized ∈ visited then (.ok ([], []), visited)
  else if _MAX_CASCADE_DEPTH < depth then (.ok ([], []), visited)
  else (env.srcData source base, visited ++ [normalized])

/-- Did the guarded body succeed? -/
def exceptIsOk {ε α : Type} : Except ε α → Bool
  | .ok _ => true
  | .error _ => false

/-- The children-and-keys of a successful collect_sources call, `([], [])`
on a raise. -/
def collect_ok (env : FeedEnv) (source base : String) (depth : Nat)
    (visited : List String) : List String × List (String × String) :=
  match (collect_sources env source base depth visited).1 with
  | .ok cd => cd
  | .error _ => ([], [])

/-- parsing.py lines 765-769: fold the keys into the seen-set and the
result, keeping the first occurrence of each non-empty normalized
link. -/
def dedup_keys : List (String × String) → List String →
    List String × List (String × String)
  | [], seen => (seen, [])
  | kf :: ks, seen =>
    let norm := normalize_proxy_link kf.1
    if norm ≠ "" ∧ norm ∉ seen then
      let sr := dedup_keys ks (seen ++ [norm])
      (sr.1, kf :: sr.2)
    else dedup_keys ks seen

/-- parsing.py lines 771-789: schedule the children that are neither
visited, nor already queued, nor beyond the cascade depth. -/
def sched_children (env : FeedEnv) (visited : List String)
    (current_base : String) (depth : Nat) :
    List String → List String → List String × List (String × String × Nat)
  | [], scheduled => (scheduled, [])
  | child :: cs, scheduled =>
    let next_base := child_base env child current_base
    let nc := env.normSrc child next_base
    if nc ∈ visited ∨ nc ∈ scheduled ∨ _MAX_CASCADE_DEPTH < depth + 1 then
      sched_children env visited current_base depth cs scheduled
    else
      let se := sched_children env visited current_base depth cs (scheduled ++ [nc])
      (se.1, (child, next_base, depth + 1) :: se.2)

/-- An upper bound on the loop iterations one source can cause within a
remaining depth budget. -/
def depthBound (env : FeedEnv) : Nat → String → String → Nat
  | 0, _, _ => 1
  | d + 1, source, base =>
    1 + ((match env.srcData source base with
        | .error _ => []
        | .ok cd => cd.1).map
      (fun c => depthBound env d c (child_base env c base))).sum

/-- The iteration bound of a whole queue. -/
def gather_measure (env : FeedEnv) (queue : List (String × String × Nat)) : Nat :=
  (queue.map (fun e => depthBound env (4 - e.2.2) e.1 e.2.1)).sum

lemma depthBound_pos (env : FeedEnv) : ∀ (d : Nat) (s b : String),
    0 < depthBound env d s b
  | 0, _, _ => Nat.one_pos
  | _ + 1, _, _ => Nat.succ_le_of_lt (Nat.lt_of_lt_of_le Nat.zero_lt_one
      (Nat.le_add_right 1 _))

lemma gather_measure_cons_lt (env : FeedEnv) (e : String × String × Nat)
    (rest : List (String × String × Nat)) :
    gather_measure env rest < gather_measure env (e :: rest) := by
  unfold gather_measure
  rw [List.map_cons, List.sum_cons]
  have := depthBound_pos env (4 - e.2.2) e.1 e.2.1
  omega

lemma sched_children_sum_le (env : FeedEnv) (visited : List String)
    (base : String) (depth : Nat) :
    ∀ (cs scheduled : List String),
      (((sched_children env visited base depth cs scheduled).2).map
        (fun e => depthBound env (4 - e.2.2) e.1 e.2.1)).sum
      ≤ (cs.map (fun c => depthBound env (3 - depth) c (child_base env c base))).sum := by
  intro cs
  induction cs with
  | nil => intro sch; simp [sched_children]
  | cons c cs ih =>
    intro sch
    unfold sched_children
    by_cases h : env.normSrc c (child_base env c base) ∈ visited
        ∨ env.normSrc c (child_base env c base) ∈ sch
        ∨ _MAX_CASCADE_DEPTH < depth + 1
    · rw [if_pos h]
      refine le_trans (ih sch) ?_
      simp only [List.map_cons, List.sum_cons]
      exact Nat.le_add_left _ _
    · rw [if_neg h]
      simp only [List.map_cons, List.sum_cons]
      have h4 : 4 - (depth + 1) = 3 - depth := by omega
      rw [h4]
      have := ih (sch ++ [env.normSrc c (child_base env c base)])
      omega

lemma collect_ok_children_sum (env : FeedEnv) (source base : String)
    (depth : Nat) (visited : List String) :
    (((collect_ok env source base depth visited).1).map
      (fun c => depthBound env (3 - depth) c (child_base env c base))).sum
    < depthBound env (4 - depth) source base := by
  by_cases hd : _MAX_CASCADE_DEPTH < depth
  · have hnil : (collect_ok env source base depth visited).1 = [] := by
      unfold collect_ok collect_sources
      by_cases h1 : env.normSrc source base ∈ visited
      · simp [h1]
      · simp [h1, hd]
    rw [hnil]
    simpa using depthBound_pos env (4 - depth) source base
  · have h4 : 4 - depth = (3 - depth) + 1 := by
      unfold _MAX_CASCADE_DEPTH at hd
      omega
    rw [h4]
    by_cases h1 : env.normSrc source base ∈ visited
    · have hnil : (collect_ok env source base depth visited).1 = [] := by
        unfold collect_ok collect_sources
        simp [h1]
      rw [hnil]
      simpa using depthBound_pos env ((3 - depth) + 1) source base
    · cases hsd : env.srcData source base with
      | error e =>
        have hnil : (collect_ok env source base depth visited).1 = [] := by
          unfold collect_ok collect_sources
          simp [h1, hd, hsd]
        rw [hnil]
        simpa using depthBound_pos env ((3 - depth) + 1) source base
      | ok cd =>
        have hch : (collect_ok env source base depth visited).1 = cd.1 := by
          unfold collect_ok collect_sources
          simp [h1, hd, hsd]
        rw [hch]
        conv_rhs => rw [depthBound]
        rw [hsd]
        have hm : (match (Except.ok cd : Except Unit
            (List String × List (String × String))) with
          | .error _ => ([] : List String)
          | .ok cd => cd.1) = cd.1 := rfl
        rw [hm]
        omega

lemma gather_measure_ok_lt (env : FeedEnv) (source base : String)
    (depth : Nat) (visited visited2 sch : List String)
    (rest : List (String × String × Nat)) :
    gather_measure env (rest ++ (sched_children env visited2 base depth
        (collect_ok env source base depth visited).1 sch).2)
      < gather_measure env ((source, base, depth) :: rest) := by
  unfold gather_measure
  rw [List.map_append, List.sum_append, List.map_cons, List.sum_cons]
  have h1 := sched_children_sum_le env visited2 base depth
    (collect_ok env source base depth visited).1 sch
  have h2 := collect_ok_children_sum env source base depth visited
  have hw : depthBound env (4 - ((source, base, depth) : String × String × Nat).2.2)
      ((source, base, depth) : String × String × Nat).1
      ((source, base, depth) : String × String × Nat).2.1
      = depthBound env (4 - depth) source base := rfl
  rw [hw]
  omega

/-- parsing.py _gather_keys (lines 743-791): the BFS working loop over
the queue of `(source, base, depth)` entries, carrying the visited and
scheduled source sets, the seen normalized links and the result.
`none` models the re-raise when `stop_on_error` is set. -/
def gather_loop (env : FeedEnv) (stop_on_error : Bool) :
    List (String × String × Nat) → List String → List String →
    List String → List (String × String) → Option (List (String × String))
  | [], _, _, _, result => some result
  | (source, current_base, depth) :: rest, visited, scheduled, seen, result =>
    let scheduled2 := scheduled.erase (env.normSrc source current_base)
    let visited2 := (collect_sources env source current_base depth visited).2
    if exceptIsOk (collect_sources env source current_base depth visited).1 then
      let ck := collect_ok env source current_base depth visited
      let sr := dedup_keys ck.2 seen
      let se := sched_children env visited2 current_base depth ck.1 scheduled2
      gather_loop env stop_on_error (rest ++ se.2) visited2 se.1 sr.1
        (result ++ sr.2)
    else
      if stop_on_error then none
      else gather_loop env stop_on_error rest visited2 scheduled2 seen result
  termination_by q v sch sn r => gather_measure env q
  decreasing_by
  · exact gather_measure_ok_lt env source current_base depth visited _ _ rest
  · exact gather_measure_cons_lt env _ rest

/-- The raw key stream of the traversal: the same source walk as
gather_loop with `stop_on_error = false`, emitting every parsed key
without deduplication, in traversal order. -/
def gather_stream (env : FeedEnv) :
    List (String × String × Nat) → List String → List String →
    List (String × String)
  | [], _, _ => []
  | (source, current_base, depth) :: rest, visited, scheduled =>
    let scheduled2 := scheduled.erase (env.normSrc source current_base)
    let visited2 := (collect_sources env source current_base depth visited).2
    if exceptIsOk (collect_sources env source current_base depth visited).1 then
      let ck := collect_ok env source current_base depth visited
      let se := sched_children env visited2 current_base depth ck.1 scheduled2
      ck.2 ++ gather_stream env (rest ++ se.2) visited2 se.1
    else
      gather_stream env rest visited2 scheduled2
  termination_by q v sch => gather_measure env q
  decreasing_by
  · exact gather_measure_ok_lt env source current_base depth visited _ _ rest
  · exact gather_measure_cons_lt env _ rest

/-- parsing.py _gather_keys entry (lines 745-749): start from the
initial source at depth 0, with it already scheduled. -/
def _gather_keys (env : FeedEnv) (stop_on_error : Bool)
    (initial_source base_dir : String) : Option (List (String × String)) :=
  gather_loop env stop_on_error [(initial_source, base_dir, 0)] []
    [env.normSrc initial_source base_dir] [] []

/-- The specification's deduplication rule as a standalone stream
function: keep a key when its normalized link is non-empty and unseen;
the first occurrence wins. -/
def dedupFirstBy (seen : List String) :
    List (String × String) → List (String × String)
  | [] => []
  | kf :: ks =>
    let n := normalize_proxy_link kf.1
    if n ≠ "" ∧ n ∉ seen then kf :: dedupFirstBy (seen ++ [n]) ks
    else dedupFirstBy seen ks

lemma dedup_keys_snd : ∀ (ks : List (String × String)) (seen : List String),
    (dedup_keys ks seen).2 = dedupFirstBy seen ks := by
  intro ks
  induction ks with
  | nil => intro seen; rfl
  | cons kf ks ih =>
    intro seen
    unfold dedup_keys dedupFirstBy
    by_cases h : normalize_proxy_link kf.1 ≠ "" ∧ normalize_proxy_link kf.1 ∉ seen
    · simp only [if_pos h]
      rw [ih]
    · simp only [if_neg h]
      exact ih seen

lemma dedupFirstBy_append :
    ∀ (ks rest : List (String × String)) (seen : List String),
      dedupFirstBy seen (ks ++ rest)
        = (dedup_keys ks seen).2 ++ dedupFirstBy (dedup_keys ks seen).1 rest := by
  intro ks
  induction ks with
  | nil => intro rest seen; rfl
  | cons kf ks ih =>
    intro rest seen
    simp only [List.cons_append, dedupFirstBy, dedup_keys, List.append_eq]
    by_cases h : normalize_proxy_link kf.1 ≠ "" ∧ normalize_proxy_link kf.1 ∉ seen
    · simp only [if_pos h]
      rw [ih]
      simp
    · simp only [if_neg h]
      exact ih rest seen

lemma dedupFirstBy_sound : ∀ (ks : List (String × String)) (seen : List String),
    ((dedupFirstBy seen ks).map (fun kf => normalize_proxy_link kf.1)).Nodup
    ∧ ∀ kf ∈ dedupFirstBy seen ks,
        kf ∈ ks ∧ normalize_proxy_link kf.1 ≠ ""
        ∧ normalize_proxy_link kf.1 ∉ seen := by
  intro ks
  induction ks with
  | nil => intro seen; exact ⟨by simp [dedupFirstBy], by simp [dedupFirstBy]⟩
  | cons kf ks ih =>
    intro seen
    unfold dedupFirstBy
    by_cases h : normalize_proxy_link kf.1 ≠ "" ∧ normalize_proxy_link kf.1 ∉ seen
    · simp only [if_pos h]
      obtain ⟨hnd, hmem⟩ := ih (seen ++ [normalize_proxy_link kf.1])
      refine ⟨?_, ?_⟩
      · simp only [List.map_cons, List.nodup_cons]
        refine ⟨?_, hnd⟩
        intro hcon
        rw [List.mem_map] at hcon
        obtain ⟨kf2, hkf2, heq⟩ := hcon
        exact (hmem kf2 hkf2).2.2 (by rw [heq]; simp)
      · intro kf2 hkf2
        rcases List.mem_cons.mp hkf2 with h1 | h1
        · subst h1
          exact ⟨List.mem_cons_self _ _, h.1, h.2⟩
        · obtain ⟨hm, hne, hns⟩ := hmem kf2 h1
          refine ⟨List.mem_cons_of_mem _ hm, hne, fun hc => hns ?_⟩
          simp [hc]
    · simp only [if_neg h]
      obtain ⟨hnd, hmem⟩ := ih seen
      refine ⟨hnd, fun kf2 hkf2 => ?_⟩
      obtain ⟨hm, hne, hns⟩ := hmem kf2 hkf2
      exact ⟨List.mem_cons_of_mem _ hm, hne, hns⟩

lemma dedupFirstBy_complete : ∀ (ks : List (String × String))
    (seen : List String) (kf : String × String), kf ∈ ks →
    normalize_proxy_link kf.1 ≠ "" → normalize_proxy_link kf.1 ∉ seen →
    ∃ kf2 ∈ dedupFirstBy seen ks,
      normalize_proxy_link kf2.1 = normalize_proxy_link kf.1 := by
  intro ks
  induction ks with
  | nil => intro seen kf h; simp at h
  | cons k0 ks ih =>
    intro seen kf hmem hne hns
    unfold dedupFirstBy
    by_cases h0 : normalize_proxy_link k0.1 ≠ "" ∧ normalize_proxy_link k0.1 ∉ seen
    · simp only [if_pos h0]
      by_cases heq : normalize_proxy_link kf.1 = normalize_proxy_link k0.1
      · exact ⟨k0, List.mem_cons_self _ _, heq.symm⟩
      · rcases List.mem_cons.mp hmem with h1 | h1
        · rw [h1] at heq
          exact absurd rfl heq
        · obtain ⟨kf2, hk2, he2⟩ := ih (seen ++ [normalize_proxy_link k0.1]) kf h1 hne
            (by
              intro hc
              rcases List.mem_append.mp hc with hc | hc
              · exact hns hc
              · rw [List.mem_singleton] at hc
                exact heq hc)
          exact ⟨kf2, List.mem_cons_of_mem _ hk2, he2⟩
    · simp only [if_neg h0]
      rcases List.mem_cons.mp hmem with h1 | h1
      · rw [h1] at hne hns
        exact absurd ⟨hne, hns⟩ h0
      · exact ih seen kf h1 hne hns

lemma gather_loop_eq (env : FeedEnv) :
    ∀ (n : Nat) (queue : List (String × String × Nat))
      (visited scheduled seen : List String) (result : List (String × String)),
      gather_measure env queue ≤ n →
      gather_loop env false queue visited scheduled seen result
        = some (result
            ++ dedupFirstBy seen (gather_stream env queue visited scheduled)) := by
  intro n
  induction n with
  | zero =>
    intro queue visited scheduled seen result hm
    cases queue with
    | nil => simp [gather_loop, gather_stream, dedupFirstBy]
    | cons e rest =>
      exfalso
      have h1 := gather_measure_cons_lt env e rest
      omega
  | succ n ih =>
    intro queue visited scheduled seen result hm
    cases queue with
    | nil => simp [gather_loop, gather_stream, dedupFirstBy]
    | cons e rest =>
      obtain ⟨source, current_base, depth⟩ := e
      simp only [gather_loop, gather_stream]
      by_cases hok : exceptIsOk
          (collect_sources env source current_base depth visited).1 = true
      · rw [if_pos hok, if_pos hok]
        set V2 := (collect_sources env source current_base depth visited).2 with hV2
        set CK := collect_ok env source current_base depth visited with hCK
        set SE := sched_children env V2 current_base depth CK.1
          (scheduled.erase (env.normSrc source current_base)) with hSE
        set SR := dedup_keys CK.2 seen with hSR
        have hmeas : gather_measure env (rest ++ SE.2) ≤ n := by
          have h2 := gather_measure_ok_lt env source current_base depth visited V2
            (scheduled.erase (env.normSrc source current_base)) rest
          rw [← hCK, ← hSE] at h2
          omega
        rw [ih (rest ++ SE.2) V2 SE.1 SR.1 (result ++ SR.2) hmeas]
        rw [dedupFirstBy_append, ← hSR]
        simp [List.append_assoc]
      · rw [if_neg hok, if_neg hok]
        simp only [Bool.false_eq_true, if_false]
        have hmeas : gather_measure env rest ≤ n := by
          have h2 := gather_measure_cons_lt env (source, current_base, depth) rest
          omega
        exact ih rest _ _ seen result hmeas

/-- C5: the cascade ingestion terminates on every feed graph — cycles
and self-references included — and returns exactly the first occurrence
of each distinct non-empty normalized key: _gather_keys never diverges
and its value is the first-occurrence deduplication of the raw
traversal key stream; the normalized links of the result are pairwise
distinct and non-empty, every result entry comes from the stream, and
every stream key with a non-empty normalized form is represented. -/
theorem c5_cascade_ingestion (env : FeedEnv) (s b : String) :
    _gather_keys env false s b
      = some (dedupFirstBy []
          (gather_stream env [(s, b, 0)] [] [env.normSrc s b]))
    ∧ ((dedupFirstBy [] (gather_stream env [(s, b, 0)] [] [env.normSrc s b])).map
        (fun kf => normalize_proxy_link kf.1)).Nodup
    ∧ (∀ kf ∈ dedupFirstBy [] (gather_stream env [(s, b, 0)] [] [env.normSrc s b]),
        kf ∈ gather_stream env [(s, b, 0)] [] [env.normSrc s b]
        ∧ normalize_proxy_link kf.1 ≠ "")
    ∧ (∀ kf ∈ gather_stream env [(s, b, 0)] [] [env.normSrc s b],
        normalize_proxy_link kf.1 ≠ "" →
        ∃ kf2 ∈ dedupFirstBy [] (gather_stream env [(s, b, 0)] [] [env.normSrc s b]),
          normalize_proxy_link kf2.1 = normalize_proxy_link kf.1) := by
  refine ⟨?_, ?_, ?_, ?_⟩
  · unfold _gather_keys
    exact (gather_loop_eq env (gather_measure env [(s, b, 0)]) _ _ _ _ _
      le_rfl).trans (by simp)
  · exact (dedupFirstBy_sound _ []).1
  · intro kf hkf
    obtain ⟨hm, hne, _⟩ := (dedupFirstBy_sound _ []).2 kf hkf
    exact ⟨hm, hne⟩
  · intro kf hkf hne
    exact dedupFirstBy_complete _ [] kf hkf hne (by simp)

end XrayCheck
